import Mathlib

/-!
Shallow embedding of `src/gen_art_framework/schema.py`: extraction of YAML
text from a docstring, per-parameter distribution validation, and the
`ParameterSpace` container, together with theorems checking the
specification's claims about that module.

Conventions of the embedding:
* Python strings are modelled as `String` / `List Char`; the fixed regex
  `r"<fence>(?:ya?ml)?\s*\n(.*?)<fence>"` (where `<fence>` is three backticks)
  is embedded as the explicit search procedure `searchFence` below, whose
  deterministic per-position matcher mirrors the regex's backtracking
  behaviour (the three tag alternatives are mutually exclusive at any
  position, greedy `\s*` followed by a mandatory newline consumes exactly
  through the last newline of the maximal whitespace run, and the lazy
  group ends at the nearest following fence).
* Python exceptions are modelled by the error type `PyErr`; `ValueError`
  carries its message.
* `yaml.safe_load` is an external library treated as a black box by the
  spec; it is modelled as an explicit function argument
  `safeLoad : String → Except String Yaml` of `parse_parameter_space`,
  where an `.error` result stands for a raised `yaml.YAMLError` with the
  given message.  `Yaml` models the values `safe_load` can produce
  (mapping keys are modelled as strings, the only shape the schema uses;
  mappings built by `safe_load` have unique keys, so first-match lookup
  agrees with Python dict lookup).
-/

namespace GenArt

/-- The backtick character (written via its code point). -/
def btick : Char := Char.ofNat 96

/-- A triple backtick, the code-fence delimiter of the extraction regex. -/
def fence : List Char := [btick, btick, btick]

/-- The `yaml` language tag. -/
def yamlTag : List Char := ['y', 'a', 'm', 'l']

/-- The `yml` language tag. -/
def ymlTag : List Char := ['y', 'm', 'l']

/-- A single-quote character as a string (used to build the Python error
messages without writing the character directly). -/
def sq : String := String.mk [Char.ofNat 39]

/-- Python's whitespace class for `str`: the characters matched by `\s`
and stripped by `str.strip()`. -/
def isPySpace (c : Char) : Bool :=
  c == ' ' || c == '\t' || c == '\n' || c == '\r' || c == '\x0b' || c == '\x0c' ||
  (0x1c ≤ c.toNat && c.toNat ≤ 0x1f) || c.toNat == 0x85 || c.toNat == 0xa0 ||
  c.toNat == 0x1680 || (0x2000 ≤ c.toNat && c.toNat ≤ 0x200a) ||
  c.toNat == 0x2028 || c.toNat == 0x2029 || c.toNat == 0x202f ||
  c.toNat == 0x205f || c.toNat == 0x3000

/-- Python `str.strip()`. -/
def pyStrip (cs : List Char) : List Char :=
  ((cs.dropWhile isPySpace).reverse.dropWhile isPySpace).reverse

/-- Python `str.split("\n")`. -/
def splitNl : List Char → List (List Char)
  | [] => [[]]
  | c :: t =>
    if c = '\n' then [] :: splitNl t
    else
      match splitNl t with
      | [] => [[c]]
      | l :: ls => (c :: l) :: ls

/-- Python `"\n".join(...)`. -/
def joinNl (lines : List (List Char)) : List Char :=
  List.intercalate ['\n'] lines

/-- Python `l.startswith(c)` for a single character. -/
def startsWithChar (l : List Char) (c : Char) : Bool :=
  match l with
  | [] => false
  | a :: _ => a == c

/-- Index of the first occurrence of `pat` in `cs`, if any. -/
def findSub (pat : List Char) : List Char → Option Nat
  | [] => if List.isPrefixOf pat [] then some 0 else none
  | c :: t =>
    if List.isPrefixOf pat (c :: t) then some 0 else (findSub pat t).map (· + 1)

/-- Python's substring test `pat in cs` on strings. -/
def isSubOf (pat cs : List Char) : Bool :=
  (findSub pat cs).isSome

/-- Index of the last newline in `cs`, if any. -/
def lastNl : List Char → Option Nat
  | [] => none
  | c :: t =>
    match lastNl t with
    | some k => some (k + 1)
    | none => if c = '\n' then some 0 else none

/-- Length of the optional `ya?ml` language tag the regex consumes right
after an opening fence.  The regex alternation is deterministic here:
`yaml`, `yml` and the empty tag are mutually exclusive at any position,
because a tag alternative that matches literally leaves a non-newline,
non-whitespace first character for the empty alternative. -/
def tagLen (cs : List Char) : Nat :=
  if List.isPrefixOf yamlTag cs then 4
  else if List.isPrefixOf ymlTag cs then 3
  else 0

/-- Characters consumed by `\s*\n` (greedy `\s*` followed by a mandatory
newline): everything up to and including the last newline of the maximal
whitespace run, if that run contains a newline. -/
def wsNl (cs : List Char) : Option Nat :=
  (lastNl (cs.takeWhile isPySpace)).map (· + 1)

/-- The extraction regex matched at the start of `cs`: an opening fence,
an optional `yaml`/`yml` tag, `\s*\n`, then the lazy group up to the
nearest closing fence.  Returns the group (the block content). -/
def matchFenceAt (cs : List Char) : Option (List Char) :=
  if List.isPrefixOf fence cs then
    match wsNl ((cs.drop 3).drop (tagLen (cs.drop 3))) with
    | none => none
    | some n =>
      match findSub fence (((cs.drop 3).drop (tagLen (cs.drop 3))).drop n) with
      | none => none
      | some j => some ((((cs.drop 3).drop (tagLen (cs.drop 3))).drop n).take j)
  else none

/-- Embedded `re.search` of the extraction regex: the match at the leftmost
position where the whole pattern matches. -/
def searchFence : List Char → Option (List Char)
  | [] => none
  | c :: t =>
    match matchFenceAt (c :: t) with
    | some g => some g
    | none => searchFence t

/-- The literal substring `parameters:` the raw-text heuristic scans for. -/
def pcolon : List Char := ['p', 'a', 'r', 'a', 'm', 'e', 't', 'e', 'r', 's', ':']

/-- The accumulation loop of the raw-YAML fallback in
`_extract_yaml_from_docstring` (state: the `in_yaml` flag and the
accumulated `yaml_lines`). -/
def rawLoop : List (List Char) → Bool → List (List Char) → List (List Char)
  | [], _, acc => acc
  | l :: rest, inYaml, acc =>
    if inYaml = false then
      if isSubOf pcolon l then rawLoop rest true (acc ++ [l])
      else rawLoop rest false acc
    else
      if !(pyStrip l).isEmpty && !(startsWithChar l ' ') && !(startsWithChar l '\t')
          && !acc.isEmpty && !(startsWithChar l '-') then
        acc
      else rawLoop rest true (acc ++ [l])

/-- The values `yaml.safe_load` can produce (scalars, sequences and
string-keyed mappings). -/
inductive Yaml where
  | s (v : String)
  | i (v : Int)
  | b (v : Bool)
  | null
  | list (items : List Yaml)
  | map (entries : List (String × Yaml))

/-- Python exceptions surfaced by the module: `ValueError` (the module's
own, message-carrying error), `TypeError` and `KeyError`. -/
inductive PyErr where
  | valueError (msg : String)
  | typeError (msg : String)
  | keyError (key : String)
deriving DecidableEq

mutual

/-- Python `repr` of a YAML value (string escaping inside `repr` is not
modelled; it only affects error-message text for names containing quotes
or control characters). -/
def pyRepr : Yaml → String
  | .s v => sq ++ v ++ sq
  | .i v => toString v
  | .b true => "True"
  | .b false => "False"
  | .null => "None"
  | .list xs => "[" ++ pyReprSeq xs ++ "]"
  | .map es => "\x7b" ++ pyReprMap es ++ "\x7d"

/-- Python `repr` of a sequence body, comma-separated. -/
def pyReprSeq : List Yaml → String
  | [] => ""
  | [x] => pyRepr x
  | x :: y :: t => pyRepr x ++ ", " ++ pyReprSeq (y :: t)

/-- Python `repr` of a mapping body, comma-separated. -/
def pyReprMap : List (String × Yaml) → String
  | [] => ""
  | [kv] => sq ++ kv.1 ++ sq ++ ": " ++ pyRepr kv.2
  | kv :: e :: t => sq ++ kv.1 ++ sq ++ ": " ++ pyRepr kv.2 ++ ", " ++ pyReprMap (e :: t)

end

/-- Python `str` of a YAML value (`str(x) = x` for strings, `repr`
otherwise), as used by f-string interpolation in the error messages. -/
def pyStr (v : Yaml) : String :=
  match v with
  | .s t => t
  | _ => pyRepr v

/-- The `ParameterDefinition` dataclass.  `name` and `distribution` hold
whatever YAML values the item carried (the code never restricts their
type), `args` the remaining key/value pairs. -/
structure ParameterDefinition where
  name : Yaml
  distribution : Yaml
  args : List (String × Yaml)

/-- The `ParameterSpace` dataclass wrapping the ordered list. -/
structure ParameterSpace where
  parameters : List ParameterDefinition

/-- Python `v == key` for a string `key`: true exactly when `v` is an
equal string (equality across types is false for the values here). -/
def yamlEqStr (v : Yaml) (t : String) : Bool :=
  match v with
  | .s u => u == t
  | _ => false

/-- Embedded `ParameterSpace.__getitem__`: first parameter whose `name` equals the
string `key`; raises `KeyError(key)` otherwise. -/
def ParameterSpace.getItem (sp : ParameterSpace) (key : String) :
    Except PyErr ParameterDefinition :=
  match sp.parameters.find? (fun p => yamlEqStr p.name key) with
  | some p => .ok p
  | none => .error (.keyError key)

/-- Lookup in a string-keyed mapping (Python dict lookup; dicts built by
`safe_load` have unique keys, so first match agrees). -/
def dictGet (es : List (String × Yaml)) (k : String) : Option Yaml :=
  (es.find? (fun kv => kv.1 == k)).map (fun kv => kv.2)

/-- Python `k in d` for a string-keyed mapping. -/
def hasKey (es : List (String × Yaml)) (k : String) : Bool :=
  (es.find? (fun kv => kv.1 == k)).isSome

/-- Python's `key in value` for the values `safe_load` can produce:
key lookup for dicts, membership for lists, substring for strings, and a
`TypeError` for non-iterable scalars. -/
def pyContains (v : Yaml) (key : String) : Except PyErr Bool :=
  match v with
  | .map es => .ok (hasKey es key)
  | .list xs => .ok (xs.any (fun x => yamlEqStr x key))
  | .s t => .ok (isSubOf key.data t.data)
  | .i _ => .error (.typeError ("argument of type " ++ sq ++ "int" ++ sq ++ " is not iterable"))
  | .b _ => .error (.typeError ("argument of type " ++ sq ++ "bool" ++ sq ++ " is not iterable"))
  | .null => .error (.typeError ("argument of type " ++ sq ++ "NoneType" ++ sq ++ " is not iterable"))

/-- Python's `value[key]` for a string key (exact `TypeError` wording for
the non-dict cases varies across Python versions; only the error kind
matters to the claims). -/
def pySubscript (v : Yaml) (key : String) : Except PyErr Yaml :=
  match v with
  | .map es =>
    match dictGet es key with
    | some w => .ok w
    | none => .error (.keyError key)
  | .s _ => .error (.typeError "string indices must be integers")
  | .list _ => .error (.typeError "list indices must be integers or slices, not str")
  | .i _ => .error (.typeError (sq ++ "int" ++ sq ++ " object is not subscriptable"))
  | .b _ => .error (.typeError (sq ++ "bool" ++ sq ++ " object is not subscriptable"))
  | .null => .error (.typeError (sq ++ "NoneType" ++ sq ++ " object is not subscriptable"))

/-- Python `.items()` (only dicts support it; in `_validate_parameter` the
non-dict cases are unreachable because an earlier subscript already
failed). -/
def pyItems (v : Yaml) : Except PyErr (List (String × Yaml)) :=
  match v with
  | .map es => .ok es
  | _ => .error (.typeError "object has no attribute items")

/-- Embedded `_validate_uniform`. -/
def _validate_uniform (args : List (String × Yaml)) (name : Yaml) : Except PyErr Unit :=
  if !hasKey args "low" then
    .error (.valueError ("Parameter " ++ sq ++ pyStr name ++ sq ++
      ": uniform distribution requires " ++ sq ++ "low" ++ sq ++ " field"))
  else if !hasKey args "high" then
    .error (.valueError ("Parameter " ++ sq ++ pyStr name ++ sq ++
      ": uniform distribution requires " ++ sq ++ "high" ++ sq ++ " field"))
  else .ok ()

/-- Embedded `_validate_normal`. -/
def _validate_normal (args : List (String × Yaml)) (name : Yaml) : Except PyErr Unit :=
  if !hasKey args "mean" then
    .error (.valueError ("Parameter " ++ sq ++ pyStr name ++ sq ++
      ": normal distribution requires " ++ sq ++ "mean" ++ sq ++ " field"))
  else if !hasKey args "std" then
    .error (.valueError ("Parameter " ++ sq ++ pyStr name ++ sq ++
      ": normal distribution requires " ++ sq ++ "std" ++ sq ++ " field"))
  else .ok ()

/-- Embedded `_validate_choice`. -/
def _validate_choice (args : List (String × Yaml)) (name : Yaml) : Except PyErr Unit :=
  if !hasKey args "values" then
    .error (.valueError ("Parameter " ++ sq ++ pyStr name ++ sq ++
      ": choice distribution requires " ++ sq ++ "values" ++ sq ++ " field"))
  else
    match dictGet args "values" with
    | some (Yaml.list _) => .ok ()
    | _ =>
      .error (.valueError ("Parameter " ++ sq ++ pyStr name ++ sq ++
        ": choice " ++ sq ++ "values" ++ sq ++ " must be a list"))

/-- Embedded `_validate_constant`. -/
def _validate_constant (args : List (String × Yaml)) (name : Yaml) : Except PyErr Unit :=
  if !hasKey args "value" then
    .error (.valueError ("Parameter " ++ sq ++ pyStr name ++ sq ++
      ": constant distribution requires " ++ sq ++ "value" ++ sq ++ " field"))
  else .ok ()

/-- The four keys of the `_VALIDATORS` table. -/
inductive DistKind where
  | uniform
  | normal
  | choice
  | constant
deriving DecidableEq

/-- Python `distribution not in _VALIDATORS`, as a lookup: a string is
matched against the four keys, a hashable non-string is simply absent,
and an unhashable value (list/dict) raises `TypeError`. -/
def distKindOf (d : Yaml) : Except PyErr (Option DistKind) :=
  match d with
  | .s t =>
    .ok (if t = "uniform" then some .uniform
      else if t = "normal" then some .normal
      else if t = "choice" then some .choice
      else if t = "constant" then some .constant
      else none)
  | .i _ => .ok none
  | .b _ => .ok none
  | .null => .ok none
  | .list _ => .error (.typeError ("unhashable type: " ++ sq ++ "list" ++ sq))
  | .map _ => .error (.typeError ("unhashable type: " ++ sq ++ "dict" ++ sq))

/-- Dispatch through the `_VALIDATORS` table. -/
def runValidator : DistKind → List (String × Yaml) → Yaml → Except PyErr Unit
  | .uniform => _validate_uniform
  | .normal => _validate_normal
  | .choice => _validate_choice
  | .constant => _validate_constant

/-- Embedded `_validate_parameter` (the `raise` statements become `.error` results,
propagated through each fallible step). -/
def _validate_parameter (param_dict : Yaml) : Except PyErr ParameterDefinition :=
  match pyContains param_dict "name" with
  | .error e => .error e
  | .ok hasName =>
    if hasName = false then
      .error (.valueError ("Parameter definition missing " ++ sq ++ "name" ++ sq ++ " field"))
    else
      match pyContains param_dict "distribution" with
      | .error e => .error e
      | .ok hasDist =>
        if hasDist = false then
          match pySubscript param_dict "name" with
          | .error e => .error e
          | .ok n =>
            .error (.valueError ("Parameter " ++ sq ++ pyStr n ++ sq ++
              " missing " ++ sq ++ "distribution" ++ sq ++ " field"))
        else
          match pySubscript param_dict "name" with
          | .error e => .error e
          | .ok name =>
            match pySubscript param_dict "distribution" with
            | .error e => .error e
            | .ok distribution =>
              match distKindOf distribution with
              | .error e => .error e
              | .ok none =>
                .error (.valueError ("Parameter " ++ sq ++ pyStr name ++ sq ++
                  ": unknown distribution type " ++ sq ++ pyStr distribution ++ sq ++
                  ". Supported types: uniform, normal, choice, constant"))
              | .ok (some kind) =>
                match pyItems param_dict with
                | .error e => .error e
                | .ok items =>
                  match runValidator kind
                      (items.filter (fun kv => !(kv.1 == "name" || kv.1 == "distribution")))
                      name with
                  | .error e => .error e
                  | .ok _ =>
                    .ok (ParameterDefinition.mk name distribution
                      (items.filter (fun kv => !(kv.1 == "name" || kv.1 == "distribution"))))

/-- Fail-fast traversal of the `parameters` list (the Python list
comprehension over the fallible `_validate_parameter`). -/
def mapEx {α β : Type} (f : α → Except PyErr β) : List α → Except PyErr (List β)
  | [] => .ok []
  | a :: t =>
    match f a with
    | .error e => .error e
    | .ok b =>
      match mapEx f t with
      | .error e => .error e
      | .ok bs => .ok (b :: bs)

/-- Embedded `_extract_yaml_from_docstring`. -/
def _extract_yaml_from_docstring (docstring : String) : Except PyErr String :=
  if docstring.data.isEmpty then .error (.valueError "Docstring is empty")
  else
    match searchFence docstring.data with
    | some g => .ok (String.mk (pyStrip g))
    | none =>
      if isSubOf pcolon docstring.data then
        let ylines := rawLoop (splitNl docstring.data) false []
        if ylines.isEmpty then .error (.valueError "No YAML content found in docstring")
        else .ok (String.mk (pyStrip (joinNl ylines)))
      else .error (.valueError "No YAML content found in docstring")

/-- The body of `parse_parameter_space` after `yaml.safe_load`: document
shape checks and per-item conversion. -/
def parse_from_data (data : Yaml) : Except PyErr ParameterSpace :=
  match data with
  | .map es =>
    if hasKey es "parameters" = false then
      .error (.valueError ("YAML must contain " ++ sq ++ "parameters" ++ sq ++ " key"))
    else
      match dictGet es "parameters" with
      | some (Yaml.list items) => (mapEx _validate_parameter items).map ParameterSpace.mk
      | _ => .error (.valueError (sq ++ "parameters" ++ sq ++ " must be a list"))
  | _ => .error (.valueError ("YAML must be a mapping with " ++ sq ++ "parameters" ++ sq ++ " key"))

/-- Embedded `parse_parameter_space`, with the external `yaml.safe_load` passed in
as the black-box argument `safeLoad`. -/
def parse_parameter_space (safeLoad : String → Except String Yaml) (docstring : String) :
    Except PyErr ParameterSpace :=
  match _extract_yaml_from_docstring docstring with
  | .error e => .error e
  | .ok yaml_content =>
    match safeLoad yaml_content with
    | .error e => .error (.valueError ("Malformed YAML: " ++ e))
    | .ok data => parse_from_data data

/-- Spec-side (from the spec's words): the input contains a fenced block —
a triple-backtick opener, optionally tagged `yaml` or `yml`, whitespace
to the end of the opener line, a newline, then content up to a matching
triple-backtick closer. -/
def HasFencedBlock (cs : List Char) : Prop :=
  ∃ pre tag ws body post : List Char,
    cs = pre ++ fence ++ tag ++ ws ++ ['\n'] ++ body ++ fence ++ post ∧
    (tag = [] ∨ tag = yamlTag ∨ tag = ymlTag) ∧ ws.all isPySpace = true

/-- Spec-side: a stopping line of the raw-text heuristic — non-blank, no
leading space or tab, and not beginning with a list-item marker. -/
def stopLine (l : List Char) : Bool :=
  !(pyStrip l).isEmpty && !(startsWithChar l ' ') && !(startsWithChar l '\t')
    && !(startsWithChar l '-')

/-- Spec-side (from the claim's words) raw-text heuristic: the first line
containing `parameters:` together with all following lines up to
(excluding) the first stopping line; all remaining lines if none. -/
def specRawLines (lines : List (List Char)) : List (List Char) :=
  match lines.dropWhile (fun l => !(isSubOf pcolon l)) with
  | [] => []
  | first :: rest => first :: rest.takeWhile (fun l => !(stopLine l))

/-- Spec-side (from the claim's words) rule table of the distribution
validator: the declared kind must be one of the four supported kinds and
carry its required arguments; `choice`'s `values` must be a list. -/
def specViolation (dist : Yaml) (args : List (String × Yaml)) : Bool :=
  match dist with
  | .s t =>
    if t = "uniform" then !hasKey args "low" || !hasKey args "high"
    else if t = "normal" then !hasKey args "mean" || !hasKey args "std"
    else if t = "choice" then
      match dictGet args "values" with
      | some (Yaml.list _) => false
      | _ => true
    else if t = "constant" then !hasKey args "value"
    else true
  | _ => true

/-! ### Concrete inputs used by the claim theorems and witnesses -/

/-- The round-trip docstring of claim C1. -/
def c1doc : String :=
  "```yaml\nparameters:\n  - name: x\n    distribution: constant\n    value: 7\n```"

/-- The YAML text the extractor produces from `c1doc`. -/
def c1yaml : String := "parameters:\n  - name: x\n    distribution: constant\n    value: 7"

/-- The value `yaml.safe_load` produces for `c1yaml` (modelling the YAML
black box on this one document). -/
def c1data : Yaml :=
  .map [("parameters",
    .list [.map [("name", .s "x"), ("distribution", .s "constant"), ("value", .i 7)]])]

/-- The expected parse result for `c1doc`. -/
def c1space : ParameterSpace :=
  ParameterSpace.mk [ParameterDefinition.mk (Yaml.s "x") (Yaml.s "constant") [("value", Yaml.i 7)]]

/-- A loader behaving like `yaml.safe_load` on the one document the C1
round-trip needs. -/
def c1load : String → Except String Yaml :=
  fun t => if t = c1yaml then .ok c1data else .error "unexpected document"

/-- Docstring without backticks exercising the raw-text heuristic. -/
def c3doc : String := "Intro text\nparameters:\n  - name: a\nEnd"

/-- Input with a `yml`-tagged fenced block, `parameters:` only inside it. -/
def c4doc : String := "See\n```yml\nkey: 1```tail"

/-- Docstring whose `parameters` list holds the non-mapping item `5`. -/
def c6doc : String := "```yaml\nparameters:\n  - 5\n```"

/-- The YAML text extracted from `c6doc`. -/
def c6yaml : String := "parameters:\n  - 5"

/-- What `yaml.safe_load` produces for `c6yaml`: the list item is the
integer `5`, not a mapping. -/
def c6data : Yaml := .map [("parameters", .list [.i 5])]

/-- Loader modelling `yaml.safe_load` on `c6yaml`. -/
def c6load : String → Except String Yaml :=
  fun t => if t = c6yaml then .ok c6data else .error "unexpected document"

/-- Docstring declaring a parameter whose `name` is the integer `123`. -/
def c7doc : String :=
  "```yaml\nparameters:\n  - name: 123\n    distribution: constant\n    value: 1\n```"

/-- The YAML text extracted from `c7doc`. -/
def c7yaml : String := "parameters:\n  - name: 123\n    distribution: constant\n    value: 1"

/-- What `yaml.safe_load` produces for `c7yaml`: the `name` value is the
integer `123`. -/
def c7data : Yaml :=
  .map [("parameters",
    .list [.map [("name", .i 123), ("distribution", .s "constant"), ("value", .i 1)]])]

/-- Loader modelling `yaml.safe_load` on `c7yaml`. -/
def c7load : String → Except String Yaml :=
  fun t => if t = c7yaml then .ok c7data else .error "unexpected document"

/-- Input whose two fenced blocks are both tagged `python`: the fence
pattern still matches, pairing the first block's closer with the second
block's opener. -/
def c10doc : String := "```python\nparameters: 1\n```\n\n```python\nmore\n```"

/-- Input with no backticks for the C10 witness. -/
def c10wdoc : String := "x\nparameters: 1\ny"

/-! ### Basic lemmas about the embedded string primitives -/

theorem yamlEqStr_iff (v : Yaml) (t : String) : yamlEqStr v t = true ↔ v = Yaml.s t := by
  cases v <;> simp [yamlEqStr]

theorem isPrefixOf_append_self (l t : List Char) : List.isPrefixOf l (l ++ t) = true := by
  rw [List.isPrefixOf_iff_prefix]
  exact List.prefix_append l t

theorem isPrefixOf_nil_iff (l : List Char) : List.isPrefixOf l ([] : List Char) = true ↔ l = [] := by
  cases l <;> simp [List.isPrefixOf]

theorem findSub_isSome_of (pat cs : List Char) (j : Nat)
    (h : List.isPrefixOf pat (cs.drop j) = true) : (findSub pat cs).isSome = true := by
  induction cs generalizing j with
  | nil =>
    simp only [List.drop_nil] at h
    simp [findSub, h]
  | cons c t ih =>
    match j with
    | 0 =>
      simp only [List.drop_zero] at h
      simp [findSub, h]
    | j + 1 =>
      simp only [List.drop_succ_cons] at h
      have := ih j h
      by_cases hp : List.isPrefixOf pat (c :: t) = true
      · simp [findSub, hp]
      · simp only [findSub, if_neg hp, Option.isSome_map']
        exact this

theorem findSub_eq_some (pat cs : List Char) (j : Nat) (h : findSub pat cs = some j) :
    List.isPrefixOf pat (cs.drop j) = true ∧
      ∀ i, i < j → List.isPrefixOf pat (cs.drop i) = false := by
  induction cs generalizing j with
  | nil =>
    by_cases hp : List.isPrefixOf pat ([] : List Char) = true
    · simp only [findSub, if_pos hp, Option.some.injEq] at h
      subst h
      exact ⟨hp, fun i hi => absurd hi (Nat.not_lt_zero i)⟩
    · simp [findSub, hp] at h
  | cons c t ih =>
    by_cases hp : List.isPrefixOf pat (c :: t) = true
    · simp only [findSub, if_pos hp, Option.some.injEq] at h
      subst h
      exact ⟨by simpa using hp, fun i hi => absurd hi (Nat.not_lt_zero i)⟩
    · simp only [findSub, if_neg hp, Option.map_eq_some'] at h
      obtain ⟨j', hj', rfl⟩ := h
      obtain ⟨h1, h2⟩ := ih j' hj'
      refine ⟨by simpa using h1, ?_⟩
      intro i hi
      match i with
      | 0 => simpa using (Bool.not_eq_true _).mp hp
      | i + 1 =>
        simp only [List.drop_succ_cons]
        exact h2 i (by omega)

theorem isSubOf_of_decomp (pat u v : List Char) : isSubOf pat (u ++ pat ++ v) = true := by
  have h : List.isPrefixOf pat ((u ++ pat ++ v).drop u.length) = true := by
    rw [List.append_assoc, List.drop_left]
    exact isPrefixOf_append_self pat v
  exact findSub_isSome_of pat _ u.length h

theorem isSubOf_nil (pat : List Char) : isSubOf pat [] = true ↔ pat = [] := by
  unfold isSubOf findSub
  by_cases hp : List.isPrefixOf pat ([] : List Char) = true
  · simp [hp, (isPrefixOf_nil_iff pat).mp hp]
  · have hne : pat ≠ [] := fun hc => hp (by subst hc; simp [List.isPrefixOf])
    simp [hp, hne]

theorem isSubOf_cons (pat : List Char) (c : Char) (t : List Char) :
    isSubOf pat (c :: t) = (List.isPrefixOf pat (c :: t) || isSubOf pat t) := by
  by_cases hp : List.isPrefixOf pat (c :: t) = true
  · simp [isSubOf, findSub, hp]
  · simp only [isSubOf, findSub, if_neg hp, Option.isSome_map]
    simp [Bool.not_eq_true _ |>.mp hp]

theorem isSubOf_toInfix (pat cs : List Char) (h : isSubOf pat cs = true) :
    ∃ u v, cs = u ++ pat ++ v := by
  simp only [isSubOf, Option.isSome_iff_exists] at h
  obtain ⟨j, hj⟩ := h
  obtain ⟨h1, _⟩ := findSub_eq_some pat cs j hj
  rw [List.isPrefixOf_iff_prefix] at h1
  obtain ⟨v, hv⟩ := h1
  exact ⟨cs.take j, v, by rw [List.append_assoc, hv, List.take_append_drop]⟩

theorem lastNl_eq_some (w : List Char) (k : Nat) (h : lastNl w = some k) :
    k < w.length ∧ w[k]? = some '\n' := by
  induction w generalizing k with
  | nil => simp [lastNl] at h
  | cons c t ih =>
    simp only [lastNl] at h
    match hl : lastNl t with
    | some k' =>
      rw [hl] at h
      simp only [Option.some.injEq] at h
      subst h
      obtain ⟨h1, h2⟩ := ih k' hl
      exact ⟨by simpa using h1, by simpa using h2⟩
    | none =>
      rw [hl] at h
      by_cases hc : c = '\n'
      · simp only [if_pos hc, Option.some.injEq] at h
        subst h
        simp [hc]
      · simp [if_neg hc] at h

theorem lastNl_isSome_of_mem (w : List Char) (h : '\n' ∈ w) : (lastNl w).isSome = true := by
  induction w with
  | nil => simp at h
  | cons c t ih =>
    simp only [lastNl]
    match hl : lastNl t with
    | some k => simp
    | none =>
      rcases List.mem_cons.mp h with hc | ht
      · simp [hl, hc.symm]
      · have := ih ht
        rw [hl] at this
        simp at this

/-! ### Soundness and completeness of the embedded fence regex -/

theorem wsNl_eq_some (cs : List Char) (n : Nat) (h : wsNl cs = some n) :
    ∃ ws1, cs = ws1 ++ ['\n'] ++ cs.drop n ∧ ws1.all isPySpace = true ∧
      ws1.length + 1 = n ∧ n ≤ (cs.takeWhile isPySpace).length := by
  simp only [wsNl, Option.map_eq_some'] at h
  obtain ⟨k, hk, rfl⟩ := h
  obtain ⟨hk1, hk2⟩ := lastNl_eq_some _ k hk
  set w := cs.takeWhile isPySpace with hw
  refine ⟨w.take k, ?_, ?_, by simp [hk1, Nat.le_of_lt hk1], by omega⟩
  · have hcs : cs = w ++ cs.dropWhile isPySpace := (List.takeWhile_append_dropWhile _ _).symm
    have hdropw : w.drop k = '\n' :: w.drop (k + 1) := by
      have := List.drop_eq_getElem_cons hk1
      rwa [(List.getElem?_eq_some_iff.mp (by simpa using hk2)).choose_spec] at this
    have hwsplit : w = w.take k ++ '\n' :: w.drop (k + 1) := by
      rw [← hdropw, List.take_append_drop]
    have hdrop : cs.drop (k + 1) = w.drop (k + 1) ++ cs.dropWhile isPySpace := by
      conv_lhs => rw [hcs]
      exact List.drop_append_of_le_length hk1
    rw [hdrop]
    conv_lhs => rw [hcs]
    conv_lhs => rw [hwsplit]
    simp
  · have : ∀ x ∈ w.take k, isPySpace x = true := by
      intro x hx
      exact List.mem_takeWhile_imp (List.mem_of_mem_take hx)
    simpa [List.all_eq_true] using this

theorem wsNl_isSome (ws rest : List Char) (hws : ws.all isPySpace = true) :
    (wsNl (ws ++ ['\n'] ++ rest)).isSome = true := by
  have hmem : '\n' ∈ (ws ++ ['\n'] ++ rest).takeWhile isPySpace := by
    rw [List.append_assoc, List.takeWhile_append_of_pos (by simpa [List.all_eq_true] using hws)]
    have : ('\n' :: rest).takeWhile isPySpace = '\n' :: rest.takeWhile isPySpace := by
      simp [List.takeWhile_cons, show isPySpace '\n' = true from by decide]
    simp [this]
  simp only [wsNl, Option.isSome_map']
  exact lastNl_isSome_of_mem _ hmem

theorem tagLen_yaml (rest : List Char) : tagLen (yamlTag ++ rest) = 4 := by
  simp [tagLen, isPrefixOf_append_self]

theorem tagLen_yml (rest : List Char) : tagLen (ymlTag ++ rest) = 3 := by
  have h1 : List.isPrefixOf yamlTag (ymlTag ++ rest) = false := by
    simp [yamlTag, ymlTag, List.isPrefixOf]
  simp [tagLen, h1, isPrefixOf_append_self]

theorem tagLen_bare (ws rest : List Char) (hws : ws.all isPySpace = true) :
    tagLen (ws ++ ['\n'] ++ rest) = 0 := by
  have hy : startsWithChar (ws ++ ['\n'] ++ rest) 'y' = false := by
    match hw : ws, hws with
    | [], _ => simp [startsWithChar]
    | c :: t, hws =>
      have hc : isPySpace c = true := List.all_eq_true.mp hws c (by simp)
      have : (c == 'y') = false := by
        cases hcy : c == 'y'
        · rfl
        · rw [eq_of_beq hcy] at hc
          simp [isPySpace] at hc
      simpa [startsWithChar] using this
  have key : ∀ (a : List Char), startsWithChar a 'y' = false →
      List.isPrefixOf yamlTag a = false ∧ List.isPrefixOf ymlTag a = false := by
    intro a ha
    match a with
    | [] => simp [yamlTag, ymlTag, List.isPrefixOf]
    | c :: t =>
      simp only [startsWithChar] at ha
      have : ('y' == c) = false := by
        cases h : 'y' == c
        · rfl
        · rw [show c = 'y' from (eq_of_beq h).symm] at ha
          simp at ha
      constructor <;> simp [yamlTag, ymlTag, List.isPrefixOf, this]
  obtain ⟨h1, h2⟩ := key _ hy
  unfold tagLen
  rw [if_neg (by rw [h1]; simp), if_neg (by rw [h2]; simp)]

theorem matchFenceAt_isSome (tag ws body post : List Char)
    (htag : tag = [] ∨ tag = yamlTag ∨ tag = ymlTag) (hws : ws.all isPySpace = true) :
    (matchFenceAt (fence ++ (tag ++ (ws ++ ['\n'] ++ (body ++ fence ++ post))))).isSome = true := by
  have hpre : List.isPrefixOf fence (fence ++ (tag ++ (ws ++ ['\n'] ++ (body ++ fence ++ post)))) = true :=
    isPrefixOf_append_self _ _
  unfold matchFenceAt
  rw [if_pos hpre]
  have hdrop3 : (fence ++ (tag ++ (ws ++ ['\n'] ++ (body ++ fence ++ post)))).drop 3 =
      tag ++ (ws ++ ['\n'] ++ (body ++ fence ++ post)) := by
    have := List.drop_left fence (tag ++ (ws ++ ['\n'] ++ (body ++ fence ++ post)))
    simpa [fence] using this
  rw [hdrop3]
  have htl : tagLen (tag ++ (ws ++ ['\n'] ++ (body ++ fence ++ post))) = tag.length := by
    rcases htag with rfl | rfl | rfl
    · simpa [List.nil_append] using tagLen_bare ws (body ++ fence ++ post) hws
    · simpa [yamlTag] using tagLen_yaml (ws ++ ['\n'] ++ (body ++ fence ++ post))
    · simpa [ymlTag] using tagLen_yml (ws ++ ['\n'] ++ (body ++ fence ++ post))
  rw [htl, List.drop_left]
  set r2 := ws ++ ['\n'] ++ (body ++ fence ++ post) with hr2
  have hsome : (wsNl r2).isSome = true := wsNl_isSome ws _ hws
  obtain ⟨n, hn⟩ := Option.isSome_iff_exists.mp hsome
  rw [hn]
  obtain ⟨ws1, hsplit, hws1, hlen, hle⟩ := wsNl_eq_some r2 n hn
  -- the closing fence occurs at index `ws.length + 1 + body.length` of `r2`,
  -- and `n` cannot exceed it because all characters before it in the
  -- whitespace run are whitespace while a backtick is not
  have hidx : r2.drop (ws.length + 1 + body.length) = fence ++ post := by
    rw [hr2]
    have h1 : ws ++ ['\n'] ++ (body ++ fence ++ post) =
        (ws ++ ['\n'] ++ body) ++ (fence ++ post) := by simp
    rw [h1]
    have h2 : (ws ++ ['\n'] ++ body).length = ws.length + 1 + body.length := by
      simp only [List.length_append, List.length_cons, List.length_nil]
    rw [← h2, List.drop_left]
  have hn_le : n ≤ ws.length + 1 + body.length := by
    by_contra hgt
    push_neg at hgt
    -- then the backtick at that index lies inside the whitespace run
    have hlt : ws.length + 1 + body.length < (r2.takeWhile isPySpace).length := by omega
    have hmem : r2[ws.length + 1 + body.length]? = some btick := by
      have : r2[ws.length + 1 + body.length]? =
          (r2.drop (ws.length + 1 + body.length))[0]? := by
        simp [List.getElem?_drop]
      rw [this, hidx]
      simp [fence]
    have hw : (r2.takeWhile isPySpace)[ws.length + 1 + body.length]? = some btick := by
      have hpre : r2.takeWhile isPySpace <+: r2 := List.takeWhile_prefix _
      obtain ⟨rest, hrest⟩ := hpre
      rw [← hrest] at hmem
      rwa [List.getElem?_append_left hlt] at hmem
    have : isPySpace btick = true := by
      have hmemw : btick ∈ r2.takeWhile isPySpace := by
        have := List.getElem?_mem hw
        exact this
      exact List.mem_takeWhile_imp hmemw
    simp [isPySpace, btick] at this
  have hclose : List.isPrefixOf fence ((r2.drop n).drop (ws.length + 1 + body.length - n)) = true := by
    rw [List.drop_drop]
    have heq : n + (ws.length + 1 + body.length - n) = ws.length + 1 + body.length := by omega
    rw [heq, hidx]
    exact isPrefixOf_append_self _ _
  have := findSub_isSome_of fence (r2.drop n) _ hclose
  obtain ⟨j, hj⟩ := Option.isSome_iff_exists.mp this
  simp [hj]

theorem matchFenceAt_eq_some (cs g : List Char) (h : matchFenceAt cs = some g) :
    ∃ tag ws1 post, cs = fence ++ tag ++ ws1 ++ ['\n'] ++ g ++ fence ++ post ∧
      (tag = [] ∨ tag = yamlTag ∨ tag = ymlTag) ∧ ws1.all isPySpace = true ∧
      ∀ i, i < g.length → List.isPrefixOf fence (g.drop i) = false := by
  unfold matchFenceAt at h
  by_cases hpre : List.isPrefixOf fence cs = true
  · rw [if_pos hpre] at h
    rw [List.isPrefixOf_iff_prefix] at hpre
    obtain ⟨r1, hr1⟩ := hpre
    have hdrop3 : cs.drop 3 = r1 := by
      rw [← hr1]
      simpa [fence] using List.drop_left fence r1
    rw [hdrop3] at h
    -- determine the tag
    have htagsplit : ∃ tag, (tag = [] ∨ tag = yamlTag ∨ tag = ymlTag) ∧
        r1 = tag ++ r1.drop (tagLen r1) := by
      unfold tagLen
      by_cases h4 : List.isPrefixOf yamlTag r1 = true
      · refine ⟨yamlTag, Or.inr (Or.inl rfl), ?_⟩
        rw [if_pos h4]
        rw [List.isPrefixOf_iff_prefix] at h4
        obtain ⟨rest, hrest⟩ := h4
        rw [← hrest]
        simp [yamlTag, List.drop_left ['y', 'a', 'm', 'l'] rest]
      · rw [if_neg h4]
        by_cases h3 : List.isPrefixOf ymlTag r1 = true
        · refine ⟨ymlTag, Or.inr (Or.inr rfl), ?_⟩
          rw [if_pos h3]
          rw [List.isPrefixOf_iff_prefix] at h3
          obtain ⟨rest, hrest⟩ := h3
          rw [← hrest]
          simp [ymlTag, List.drop_left ['y', 'm', 'l'] rest]
        · rw [if_neg h3]
          exact ⟨[], Or.inl rfl, by simp⟩
    obtain ⟨tag, htag, hr1split⟩ := htagsplit
    set r2 := r1.drop (tagLen r1) with hr2def
    match hws : wsNl r2 with
    | none => rw [hws] at h; cases h
    | some n =>
      rw [hws] at h
      have h2 : (match findSub fence (List.drop n r2) with
          | none => none
          | some j => some (List.take j (List.drop n r2))) = some g := h
      obtain ⟨ws1, hsplit, hws1, hlen, _⟩ := wsNl_eq_some r2 n hws
      match hfs : findSub fence (r2.drop n) with
      | none => rw [hfs] at h2; cases h2
      | some j =>
        rw [hfs] at h2
        simp only [Option.some.injEq] at h2
        have h := h2
        obtain ⟨hj1, hj2⟩ := findSub_eq_some fence (r2.drop n) j hfs
        rw [List.isPrefixOf_iff_prefix] at hj1
        obtain ⟨post, hpost⟩ := hj1
        have hbody : r2.drop n = g ++ (fence ++ post) := by
          rw [← h, hpost, List.take_append_drop]
        have hjle : j ≤ (r2.drop n).length := by
          by_contra hgt
          push_neg at hgt
          have hnil : (r2.drop n).drop j = [] := List.drop_eq_nil_of_le (Nat.le_of_lt hgt)
          rw [hnil] at hpost
          have : fence ++ post = ([] : List Char) := hpost
          simp [fence] at this
        have hjlen : g.length = j := by
          rw [← h, List.length_take]
          omega
        refine ⟨tag, ws1, post, ?_, htag, hws1, ?_⟩
        · rw [← hr1, hr1split, hsplit, hbody]
          simp
        · intro i hi
          have hi' : i < j := by omega
          have hmin := hj2 i hi'
          cases hpg : List.isPrefixOf fence (g.drop i)
          · rfl
          · exfalso
            rw [List.isPrefixOf_iff_prefix] at hpg
            have hgdrop : g.drop i <+: (r2.drop n).drop i := by
              rw [hbody]
              rw [List.drop_append_of_le_length (by omega)]
              exact List.prefix_append _ _
            have : fence <+: (r2.drop n).drop i := hpg.trans hgdrop
            rw [← List.isPrefixOf_iff_prefix] at this
            rw [hmin] at this
            cases this
  · rw [if_neg hpre] at h
    cases h

theorem searchFence_eq_some (cs g : List Char) (h : searchFence cs = some g) :
    ∃ p, matchFenceAt (cs.drop p) = some g ∧ ∀ i, i < p → matchFenceAt (cs.drop i) = none := by
  induction cs with
  | nil => simp [searchFence] at h
  | cons c t ih =>
    unfold searchFence at h
    match hm : matchFenceAt (c :: t) with
    | some g' =>
      rw [hm] at h
      simp only [Option.some.injEq] at h
      subst h
      exact ⟨0, hm, fun i hi => absurd hi (Nat.not_lt_zero i)⟩
    | none =>
      rw [hm] at h
      obtain ⟨p, h1, h2⟩ := ih h
      refine ⟨p + 1, by simpa using h1, ?_⟩
      intro i hi
      match i with
      | 0 => simpa using hm
      | i + 1 => simpa using h2 i (by omega)

theorem searchFence_isSome (cs : List Char) (p : Nat)
    (h : (matchFenceAt (cs.drop p)).isSome = true) : (searchFence cs).isSome = true := by
  induction cs generalizing p with
  | nil =>
    rw [List.drop_nil] at h
    rw [show matchFenceAt [] = none from by simp [matchFenceAt, fence, List.isPrefixOf]] at h
    cases h
  | cons c t ih =>
    unfold searchFence
    match hm : matchFenceAt (c :: t) with
    | some g => simp
    | none =>
      match p with
      | 0 =>
        rw [List.drop_zero, hm] at h
        cases h
      | p + 1 =>
        rw [List.drop_succ_cons] at h
        exact ih p h

/-- Any `searchFence` hit is a genuine fenced block of the input. -/
theorem hasFencedBlock_of_searchFence (cs g : List Char) (h : searchFence cs = some g) :
    HasFencedBlock cs := by
  obtain ⟨p, h1, _⟩ := searchFence_eq_some cs g h
  obtain ⟨tag, ws1, post, hsplit, htag, hws1, _⟩ := matchFenceAt_eq_some _ g h1
  refine ⟨cs.take p, tag, ws1, g, post, ?_, htag, hws1⟩
  conv_lhs => rw [← List.take_append_drop p cs]
  rw [hsplit]
  simp

/-! ### The raw-text fallback loop equals its declarative description -/

theorem rawLoop_inYaml (lines : List (List Char)) : ∀ acc : List (List Char),
    acc.isEmpty = false →
    rawLoop lines true acc = acc ++ lines.takeWhile (fun l => !(stopLine l)) := by
  induction lines with
  | nil => intro acc _; simp [rawLoop]
  | cons l rest ih =>
    intro acc hacc
    unfold rawLoop
    rw [if_neg (by simp)]
    have hcond : (!(pyStrip l).isEmpty && !(startsWithChar l ' ') && !(startsWithChar l '\t')
        && !acc.isEmpty && !(startsWithChar l '-')) = stopLine l := by
      rw [hacc]
      simp [stopLine]
    rw [hcond]
    by_cases hstop : stopLine l = true
    · rw [if_pos hstop]
      simp [List.takeWhile_cons, hstop]
    · rw [if_neg hstop]
      rw [ih (acc ++ [l]) (by simp)]
      simp [List.takeWhile_cons, Bool.not_eq_true _ |>.mp hstop]

theorem rawLoop_spec (lines : List (List Char)) :
    rawLoop lines false [] = specRawLines lines := by
  induction lines with
  | nil => simp [rawLoop, specRawLines]
  | cons l rest ih =>
    unfold rawLoop
    rw [if_pos rfl]
    by_cases hc : isSubOf pcolon l = true
    · rw [if_pos hc]
      simp only [List.nil_append]
      rw [rawLoop_inYaml rest [l] (by simp)]
      simp [specRawLines, List.dropWhile_cons, hc]
    · rw [if_neg hc]
      rw [ih]
      simp [specRawLines, List.dropWhile_cons, Bool.not_eq_true _ |>.mp hc]

theorem splitNl_head (cs : List Char) :
    ∃ ls, splitNl cs = cs.takeWhile (fun c => !(c == '\n')) :: ls := by
  induction cs with
  | nil => exact ⟨[], rfl⟩
  | cons c t ih =>
    by_cases hc : c = '\n'
    · subst hc
      refine ⟨splitNl t, ?_⟩
      simp [splitNl, List.takeWhile_cons]
    · obtain ⟨ls, hls⟩ := ih
      refine ⟨ls, ?_⟩
      have hb : (c == '\n') = false := by
        cases hcb : c == '\n'
        · rfl
        · exact absurd (eq_of_beq hcb) hc
      simp only [splitNl, if_neg hc, hls, List.takeWhile_cons, hb]
      simp

theorem isSubOf_of_prefix (pat l : List Char) (h : pat <+: l) : isSubOf pat l = true := by
  obtain ⟨v, rfl⟩ := h
  simpa using isSubOf_of_decomp pat [] v

theorem prefix_takeWhile_of_no_nl (pat : List Char) (hnl : '\n' ∉ pat) :
    ∀ cs : List Char, pat <+: cs → pat <+: cs.takeWhile (fun c => !(c == '\n')) := by
  induction pat with
  | nil => intro cs _; exact List.nil_prefix
  | cons p pt ih =>
    intro cs h
    obtain ⟨t, ht⟩ := h
    subst ht
    have hp : (p == '\n') = false := by
      cases hcb : p == '\n'
      · rfl
      · exact absurd (by simpa using eq_of_beq hcb ▸ List.mem_cons_self p pt) (by
          intro hm
          exact hnl (by rw [← eq_of_beq hcb]; exact List.mem_cons_self p pt))
    have hih := ih (fun hm => hnl (List.mem_cons_of_mem p hm)) (pt ++ t) (List.prefix_append pt t)
    obtain ⟨u, hu⟩ := hih
    refine ⟨u, ?_⟩
    simp only [List.cons_append, List.takeWhile_cons, hp]
    simp [hu]

theorem isSubOf_line (pat : List Char) (hnl : '\n' ∉ pat) :
    ∀ cs : List Char, isSubOf pat cs = true →
    ∃ l ∈ splitNl cs, isSubOf pat l = true := by
  intro cs
  induction cs with
  | nil =>
    intro h
    have hp : pat = [] := (isSubOf_nil pat).mp h
    subst hp
    exact ⟨[], by simp [splitNl], (isSubOf_nil []).mpr rfl⟩
  | cons c t ih =>
    intro h
    rw [isSubOf_cons] at h
    by_cases hp : List.isPrefixOf pat (c :: t) = true
    · have hpre : pat <+: (c :: t) := List.isPrefixOf_iff_prefix.mp hp
      have := prefix_takeWhile_of_no_nl pat hnl (c :: t) hpre
      obtain ⟨ls, hls⟩ := splitNl_head (c :: t)
      exact ⟨_, by rw [hls]; exact List.mem_cons_self _ _, isSubOf_of_prefix _ _ this⟩
    · have hs : isSubOf pat t = true := by
        rw [Bool.not_eq_true] at hp
        simpa [hp] using h
      obtain ⟨l, hl, hsub⟩ := ih hs
      by_cases hc : c = '\n'
      · subst hc
        exact ⟨l, by simp [splitNl, hl], hsub⟩
      · match hsp : splitNl t with
        | [] => rw [hsp] at hl; cases hl
        | l0 :: ls =>
          rw [hsp] at hl
          rcases List.mem_cons.mp hl with rfl | hmem
          · refine ⟨c :: l, ?_, ?_⟩
            · simp [splitNl, if_neg hc, hsp]
            · rw [isSubOf_cons]
              simp [hsub]
          · exact ⟨l, by simp [splitNl, if_neg hc, hsp, hmem], hsub⟩

theorem specRawLines_ne_nil (lines : List (List Char))
    (h : ∃ l ∈ lines, isSubOf pcolon l = true) : specRawLines lines ≠ [] := by
  obtain ⟨l, hl, hsub⟩ := h
  unfold specRawLines
  match hd : lines.dropWhile (fun l => !(isSubOf pcolon l)) with
  | [] =>
    exfalso
    have := List.dropWhile_eq_nil_iff.mp hd
    have := this l hl
    simp [hsub] at this
  | first :: rest => simp

/-! ### Shape of successful validation and parsing -/

theorem hasKey_of_dictGet (es : List (String × Yaml)) (k : String) (v : Yaml)
    (h : dictGet es k = some v) : hasKey es k = true := by
  simp only [dictGet, Option.map_eq_some'] at h
  obtain ⟨kv, hkv, _⟩ := h
  simp [hasKey, hkv]

theorem dictGet_of_hasKey (es : List (String × Yaml)) (k : String)
    (h : hasKey es k = true) : ∃ v, dictGet es k = some v := by
  simp only [hasKey, Option.isSome_iff_exists] at h
  obtain ⟨kv, hkv⟩ := h
  exact ⟨kv.2, by simp [dictGet, hkv]⟩

theorem validate_ok (p : Yaml) (pd : ParameterDefinition)
    (h : _validate_parameter p = .ok pd) :
    ∃ es, p = .map es ∧ hasKey es "name" = true ∧ hasKey es "distribution" = true ∧
      dictGet es "name" = some pd.name ∧ dictGet es "distribution" = some pd.distribution ∧
      pd.args = es.filter (fun kv => !(kv.1 == "name" || kv.1 == "distribution")) := by
  match p with
  | .i v => unfold _validate_parameter at h; simp [pyContains] at h
  | .b v => unfold _validate_parameter at h; simp [pyContains] at h
  | .null => unfold _validate_parameter at h; simp [pyContains] at h
  | .s v =>
    exfalso
    unfold _validate_parameter at h
    simp only [pyContains, pySubscript] at h
    split at h
    · exact Except.noConfusion h
    · split at h
      · exact Except.noConfusion h
      · exact Except.noConfusion h
  | .list xs =>
    exfalso
    unfold _validate_parameter at h
    simp only [pyContains, pySubscript] at h
    split at h
    · exact Except.noConfusion h
    · split at h
      · exact Except.noConfusion h
      · exact Except.noConfusion h
  | .map es =>
    refine ⟨es, rfl, ?_⟩
    unfold _validate_parameter at h
    simp only [pyContains, pyItems] at h
    match hn : hasKey es "name" with
    | false => rw [hn] at h; simp at h
    | true =>
      rw [hn] at h
      simp only [Bool.true_eq_false, if_false] at h
      obtain ⟨nv, hnv⟩ := dictGet_of_hasKey es "name" hn
      match hd : hasKey es "distribution" with
      | false => rw [hd] at h; simp [pySubscript, hnv] at h
      | true =>
        rw [hd] at h
        simp only [Bool.true_eq_false, if_false] at h
        obtain ⟨dv, hdv⟩ := dictGet_of_hasKey es "distribution" hd
        simp only [pySubscript, hnv, hdv] at h
        match hk : distKindOf dv with
        | .error e => rw [hk] at h; simp at h
        | .ok none => rw [hk] at h; simp at h
        | .ok (some kind) =>
          rw [hk] at h
          simp only [] at h
          match hv : runValidator kind
              (es.filter (fun kv => !(kv.1 == "name" || kv.1 == "distribution"))) nv with
          | .error e => rw [hv] at h; simp at h
          | .ok _ =>
            rw [hv] at h
            simp only [Except.ok.injEq] at h
            subst h
            exact ⟨rfl, rfl, hnv, hdv, rfl⟩

theorem mapEx_ok_member {α β : Type} (f : α → Except PyErr β) (l : List α) (bs : List β)
    (h : mapEx f l = .ok bs) (b : β) (hb : b ∈ bs) : ∃ a ∈ l, f a = .ok b := by
  induction l generalizing bs with
  | nil =>
    simp only [mapEx, Except.ok.injEq] at h
    subst h
    cases hb
  | cons a t ih =>
    unfold mapEx at h
    match hf : f a with
    | .error e => rw [hf] at h; cases h
    | .ok b0 =>
      rw [hf] at h
      match hm : mapEx f t with
      | .error e => rw [hm] at h; cases h
      | .ok bs0 =>
        rw [hm] at h
        simp only [Except.ok.injEq] at h
        subst h
        rcases List.mem_cons.mp hb with rfl | hmem
        · exact ⟨a, List.mem_cons_self a t, hf⟩
        · obtain ⟨a', ha', hfa'⟩ := ih bs0 hm hmem
          exact ⟨a', List.mem_cons_of_mem a ha', hfa'⟩

theorem parse_ok_member (safeLoad : String → Except String Yaml) (doc : String)
    (sp : ParameterSpace) (h : parse_parameter_space safeLoad doc = .ok sp)
    (pd : ParameterDefinition) (hpd : pd ∈ sp.parameters) :
    ∃ ytext es items item, _extract_yaml_from_docstring doc = .ok ytext ∧
      safeLoad ytext = .ok (.map es) ∧ dictGet es "parameters" = some (.list items) ∧
      item ∈ items ∧ _validate_parameter item = .ok pd := by
  unfold parse_parameter_space at h
  match he : _extract_yaml_from_docstring doc with
  | .error e => rw [he] at h; cases h
  | .ok ytext =>
    rw [he] at h
    have h1 : (match safeLoad ytext with
        | Except.error e => Except.error (PyErr.valueError ("Malformed YAML: " ++ e))
        | Except.ok data => parse_from_data data) = Except.ok sp := h
    match hl : safeLoad ytext with
    | .error e => rw [hl] at h1; cases h1
    | .ok data =>
      rw [hl] at h1
      have h2 : parse_from_data data = Except.ok sp := h1
      match data with
      | .s v => simp [parse_from_data] at h2
      | .i v => simp [parse_from_data] at h2
      | .b v => simp [parse_from_data] at h2
      | .null => simp [parse_from_data] at h2
      | .list xs => simp [parse_from_data] at h2
      | .map es =>
        simp only [parse_from_data] at h2
        match hk : hasKey es "parameters" with
        | false => rw [hk] at h2; simp at h2
        | true =>
          rw [hk] at h2
          simp only [Bool.true_eq_false, if_false] at h2
          match hg : dictGet es "parameters" with
          | none => rw [hg] at h2; simp at h2
          | some (.s v) => rw [hg] at h2; simp at h2
          | some (.i v) => rw [hg] at h2; simp at h2
          | some (.b v) => rw [hg] at h2; simp at h2
          | some .null => rw [hg] at h2; simp at h2
          | some (.map es2) => rw [hg] at h2; simp at h2
          | some (.list items) =>
            rw [hg] at h2
            have h3 : Except.map ParameterSpace.mk (mapEx _validate_parameter items) =
                Except.ok sp := h2
            match hm : mapEx _validate_parameter items with
            | .error e => rw [hm] at h3; exact Except.noConfusion h3
            | .ok pds =>
              rw [hm] at h3
              have h4 : (Except.ok (ParameterSpace.mk pds) : Except PyErr ParameterSpace) =
                  Except.ok sp := h3
              have h5 : ParameterSpace.mk pds = sp := by
                injection h4
              subst h5
              obtain ⟨item, hitem, hval⟩ := mapEx_ok_member _ items pds hm pd hpd
              exact ⟨ytext, es, items, item, rfl, hl, hg, hitem, hval⟩

/-! ### Shared helpers for the claim theorems -/

theorem isEmpty_false_of_ne {α : Type} (l : List α) (h : l ≠ []) : l.isEmpty = false := by
  cases l
  · exact absurd rfl h
  · rfl

theorem parse_unfold (safeLoad : String → Except String Yaml) (doc ytext : String)
    (he : _extract_yaml_from_docstring doc = .ok ytext) :
    parse_parameter_space safeLoad doc =
      (match safeLoad ytext with
        | .error e => .error (.valueError ("Malformed YAML: " ++ e))
        | .ok data => parse_from_data data) := by
  unfold parse_parameter_space
  rw [he]

theorem noFence_of_noBacktick (cs : List Char) (h : btick ∉ cs) : ¬ HasFencedBlock cs := by
  rintro ⟨pre, tag, ws, body, post, hsplit, _, _⟩
  apply h
  rw [hsplit]
  simp [fence]

theorem searchFence_none_of_noFence (cs : List Char) (hnf : ¬ HasFencedBlock cs) :
    searchFence cs = none := by
  match hsf : searchFence cs with
  | none => rfl
  | some g => exact absurd (hasFencedBlock_of_searchFence cs g hsf) hnf

theorem extract_raw (s : String) (hnf : ¬ HasFencedBlock s.data)
    (hp : isSubOf pcolon s.data = true) :
    _extract_yaml_from_docstring s =
      .ok (String.mk (pyStrip (joinNl (specRawLines (splitNl s.data))))) := by
  have hne : s.data ≠ [] := by
    intro hnil
    rw [hnil] at hp
    have := (isSubOf_nil pcolon).mp hp
    simp [pcolon] at this
  have hsf : searchFence s.data = none := searchFence_none_of_noFence _ hnf
  have h1 : ¬(s.data.isEmpty = true) := by
    rw [isEmpty_false_of_ne _ hne]
    simp
  have e1 : _extract_yaml_from_docstring s =
      (if isSubOf pcolon s.data then
        (let ylines := rawLoop (splitNl s.data) false []
         if ylines.isEmpty then .error (.valueError "No YAML content found in docstring")
         else .ok (String.mk (pyStrip (joinNl ylines))))
      else .error (.valueError "No YAML content found in docstring")) := by
    unfold _extract_yaml_from_docstring
    rw [if_neg h1, hsf]
  rw [e1, if_pos hp]
  have hnonnil : specRawLines (splitNl s.data) ≠ [] :=
    specRawLines_ne_nil _ (isSubOf_line pcolon (by decide) s.data hp)
  have hempty : ¬((specRawLines (splitNl s.data)).isEmpty = true) := by
    rw [isEmpty_false_of_ne _ hnonnil]
    simp
  simp only [rawLoop_spec]
  rw [if_neg hempty]

theorem extract_noYaml (s : String) (hnf : ¬ HasFencedBlock s.data)
    (hp : isSubOf pcolon s.data = false) (hne : s.data ≠ []) :
    _extract_yaml_from_docstring s =
      .error (.valueError "No YAML content found in docstring") := by
  have hsf : searchFence s.data = none := searchFence_none_of_noFence _ hnf
  have h1 : ¬(s.data.isEmpty = true) := by
    rw [isEmpty_false_of_ne _ hne]
    simp
  have e1 : _extract_yaml_from_docstring s =
      (if isSubOf pcolon s.data then
        (let ylines := rawLoop (splitNl s.data) false []
         if ylines.isEmpty then .error (.valueError "No YAML content found in docstring")
         else .ok (String.mk (pyStrip (joinNl ylines))))
      else .error (.valueError "No YAML content found in docstring")) := by
    unfold _extract_yaml_from_docstring
    rw [if_neg h1, hsf]
  rw [e1, if_neg (by simp [hp])]

theorem hasKey_filter_lifted (ies : List (String × Yaml)) (k : String)
    (hk : k = "name" ∨ k = "distribution") :
    hasKey (ies.filter (fun kv => !(kv.1 == "name" || kv.1 == "distribution"))) k = false := by
  cases hf : (ies.filter (fun kv => !(kv.1 == "name" || kv.1 == "distribution"))).find?
      (fun kv => kv.1 == k) with
  | none =>
    unfold hasKey
    rw [hf]
    rfl
  | some kv =>
    exfalso
    have h1 := List.find?_some hf
    have h2 := List.mem_of_find?_eq_some hf
    have h3 := (List.mem_filter.mp h2).2
    have hkk : kv.1 = k := by simpa using h1
    rw [hkk] at h3
    rcases hk with rfl | rfl <;> simp at h3

theorem find?_first {α : Type} (q : α → Bool) (l : List α) (a : α) :
    l.find? q = some a ↔
      ∃ i : Nat, l[i]? = some a ∧ q a = true ∧
        ∀ j : Nat, j < i → ∀ b : α, l[j]? = some b → q b = false := by
  induction l generalizing a with
  | nil => simp
  | cons x t ih =>
    by_cases hx : q x = true
    · rw [List.find?_cons, hx]
      constructor
      · intro h
        simp only [Option.some.injEq] at h
        subst h
        exact ⟨0, by simp, hx, fun j hj => absurd hj (Nat.not_lt_zero j)⟩
      · rintro ⟨i, hi, hqa, hmin⟩
        match i with
        | 0 =>
          simp only [List.getElem?_cons_zero, Option.some.injEq] at hi
          subst hi
          rfl
        | i + 1 =>
          have := hmin 0 (Nat.succ_pos i) x (by simp)
          rw [hx] at this
          cases this
    · have hx' : q x = false := by
        cases hq : q x
        · rfl
        · exact absurd hq hx
      rw [List.find?_cons, hx']
      rw [ih]
      constructor
      · rintro ⟨i, hi, hqa, hmin⟩
        refine ⟨i + 1, by simpa using hi, hqa, ?_⟩
        intro j hj b hb
        match j with
        | 0 =>
          simp only [List.getElem?_cons_zero, Option.some.injEq] at hb
          subst hb
          exact hx'
        | j + 1 =>
          exact hmin j (by omega) b (by simpa using hb)
      · rintro ⟨i, hi, hqa, hmin⟩
        match i with
        | 0 =>
          simp only [List.getElem?_cons_zero, Option.some.injEq] at hi
          subst hi
          exact absurd hqa hx
        | i + 1 =>
          refine ⟨i, by simpa using hi, hqa, ?_⟩
          intro j hj b hb
          exact hmin (j + 1) (by omega) b (by simpa using hb)

/-! ### The claim theorems -/

/-- C1: for the docstring carrying a yaml-fenced block that declares the
single parameter `x` with distribution `constant` and `value: 7`, and any
loader that parses the extracted text to the corresponding mapping,
`parse_parameter_space` returns a one-element space whose definition has
`name == "x"`, `distribution == "constant"` and `args == {"value": 7}`. -/
theorem claim1_roundtrip_constant (safeLoad : String → Except String Yaml)
    (h : safeLoad c1yaml = .ok c1data) :
    parse_parameter_space safeLoad c1doc = .ok c1space ∧
      c1space.parameters.length = 1 ∧
      c1space.parameters =
        [ParameterDefinition.mk (Yaml.s "x") (Yaml.s "constant") [("value", Yaml.i 7)]] := by
  refine ⟨?_, rfl, rfl⟩
  rw [parse_unfold safeLoad c1doc c1yaml rfl, h]
  rfl

/-- Witness for C1 at the concrete loader `c1load`. -/
theorem claim1_witness :
    parse_parameter_space c1load c1doc = .ok c1space ∧
      c1space.parameters.length = 1 ∧
      c1space.parameters =
        [ParameterDefinition.mk (Yaml.s "x") (Yaml.s "constant") [("value", Yaml.i 7)]] :=
  claim1_roundtrip_constant c1load rfl

/-- C3: for an input with no fenced block but containing `parameters:`,
extraction returns, trimmed, the first line containing `parameters:`
together with all subsequent lines up to (excluding) the first later line
that is non-blank, has no leading space or tab, and does not begin with
`-`; all remaining lines if no stopping line exists (`specRawLines` is
that declarative description). -/
theorem claim3_raw_heuristic (s : String) (hnf : ¬ HasFencedBlock s.data)
    (hp : isSubOf pcolon s.data = true) :
    _extract_yaml_from_docstring s =
      .ok (String.mk (pyStrip (joinNl (specRawLines (splitNl s.data))))) :=
  extract_raw s hnf hp

/-- Witness for C3: the heuristic result on `c3doc`, evaluated. -/
theorem claim3_witness :
    _extract_yaml_from_docstring c3doc =
      .ok (String.mk (pyStrip (joinNl (specRawLines (splitNl c3doc.data))))) ∧
    _extract_yaml_from_docstring c3doc = .ok "parameters:\n  - name: a" :=
  ⟨claim3_raw_heuristic c3doc (noFence_of_noBacktick _ (by decide)) (by decide), rfl⟩

/-- C4: an input containing a fenced block (triple-backtick opener, bare or
tagged `yaml`/`yml`, whitespace, a newline, content, a triple-backtick
closer) makes extraction return the trimmed content of the first such
block — the raw-text heuristic is never consulted: the result is the
group of a block decomposition of the input, contains no fence itself
(the regex group is non-greedy), and starts no later than the given
block. -/
theorem claim4_fenced_block_priority (s : String) (pre tag ws body post : List Char)
    (hdec : s.data = pre ++ fence ++ tag ++ ws ++ ['\n'] ++ body ++ fence ++ post)
    (htag : tag = [] ∨ tag = yamlTag ∨ tag = ymlTag)
    (hws : ws.all isPySpace = true) :
    ∃ g pre2 tag2 ws2 post2,
      _extract_yaml_from_docstring s = .ok (String.mk (pyStrip g)) ∧
      s.data = pre2 ++ fence ++ tag2 ++ ws2 ++ ['\n'] ++ g ++ fence ++ post2 ∧
      (tag2 = [] ∨ tag2 = yamlTag ∨ tag2 = ymlTag) ∧ ws2.all isPySpace = true ∧
      (∀ i, i < g.length → List.isPrefixOf fence (g.drop i) = false) ∧
      pre2.length ≤ pre.length := by
  have hne : s.data ≠ [] := by
    rw [hdec]
    intro h0
    simp [fence] at h0
  have hmatch : (matchFenceAt (s.data.drop pre.length)).isSome = true := by
    rw [hdec]
    have hassoc : pre ++ fence ++ tag ++ ws ++ ['\n'] ++ body ++ fence ++ post =
        pre ++ (fence ++ (tag ++ (ws ++ ['\n'] ++ (body ++ fence ++ post)))) := by
      simp [List.append_assoc]
    rw [hassoc, List.drop_left]
    exact matchFenceAt_isSome tag ws body post htag hws
  have hsome : (searchFence s.data).isSome = true := searchFence_isSome _ _ hmatch
  obtain ⟨g, hg⟩ := Option.isSome_iff_exists.mp hsome
  obtain ⟨p, hp1, hp2⟩ := searchFence_eq_some _ _ hg
  obtain ⟨tag2, ws2, post2, hsp, htag2, hws2, hmin⟩ := matchFenceAt_eq_some _ _ hp1
  have hple : p ≤ pre.length := by
    by_contra hgt
    push_neg at hgt
    have hnone := hp2 pre.length hgt
    rw [hnone] at hmatch
    cases hmatch
  have hsdec : s.data = s.data.take p ++ fence ++ tag2 ++ ws2 ++ ['\n'] ++ g ++ fence ++ post2 := by
    conv_lhs => rw [← List.take_append_drop p s.data]
    rw [hsp]
    simp [List.append_assoc]
  have hlen : (s.data.take p).length ≤ pre.length := by
    have h1 : (s.data.take p).length ≤ p := by
      rw [List.length_take]
      omega
    omega
  refine ⟨g, s.data.take p, tag2, ws2, post2, ?_, hsdec, htag2, hws2, hmin, hlen⟩
  unfold _extract_yaml_from_docstring
  rw [if_neg (by rw [isEmpty_false_of_ne _ hne]; simp), hg]

/-- Witness for C4 at `c4doc`, whose block decomposition is explicit. -/
theorem claim4_witness :
    ∃ g pre2 tag2 ws2 post2,
      _extract_yaml_from_docstring c4doc = .ok (String.mk (pyStrip g)) ∧
      c4doc.data = pre2 ++ fence ++ tag2 ++ ws2 ++ ['\n'] ++ g ++ fence ++ post2 ∧
      (tag2 = [] ∨ tag2 = yamlTag ∨ tag2 = ymlTag) ∧ ws2.all isPySpace = true ∧
      (∀ i, i < g.length → List.isPrefixOf fence (g.drop i) = false) ∧
      pre2.length ≤ ("See\n".data).length :=
  claim4_fenced_block_priority c4doc ("See\n".data) ymlTag [] ("key: 1".data) ("tail".data)
    (by decide) (Or.inr (Or.inr rfl)) rfl

/-- C6 counterexample: on a document whose `parameters` list contains the
non-mapping item `5`, `parse_parameter_space` fails with a `TypeError`
(from `"name" in 5`), not with the module's string-carrying `ValueError`
reporting a non-mapping item — the code has no item-is-a-mapping check. -/
theorem claim6_counterexample :
    parse_parameter_space c6load c6doc =
      .error (.typeError ("argument of type " ++ sq ++ "int" ++ sq ++ " is not iterable")) ∧
    ∀ m : String,
      PyErr.typeError ("argument of type " ++ sq ++ "int" ++ sq ++ " is not iterable") ≠
        PyErr.valueError m :=
  ⟨rfl, fun _ h => PyErr.noConfusion h⟩

/-- C6 amended: there is no item-is-a-mapping check; an item that does not
support the `in` operator (an integer, as any YAML scalar number) makes
`parse_parameter_space` raise `TypeError` from the membership test
`"name" in item`, instead of a `SchemaError` reporting the item. -/
theorem claim6_nonmapping_item_typeerror (safeLoad : String → Except String Yaml)
    (doc ytext : String) (n : Int) (rest : List Yaml)
    (he : _extract_yaml_from_docstring doc = .ok ytext)
    (hl : safeLoad ytext = .ok (.map [("parameters", .list (Yaml.i n :: rest))])) :
    parse_parameter_space safeLoad doc =
      .error (.typeError ("argument of type " ++ sq ++ "int" ++ sq ++ " is not iterable")) := by
  rw [parse_unfold safeLoad doc ytext he, hl]
  rfl

/-- Witness for the amended C6 at the concrete document `c6doc`. -/
theorem claim6_witness :
    parse_parameter_space c6load c6doc =
      .error (.typeError ("argument of type " ++ sq ++ "int" ++ sq ++ " is not iterable")) :=
  claim6_nonmapping_item_typeerror c6load c6doc c6yaml 5 [] rfl rfl

/-- C7 counterexample: a parameter whose `name` is the integer `123` parses
successfully, so the resulting definition's `name` is not a (non-empty
identifier) string at all. -/
theorem claim7_counterexample :
    parse_parameter_space c7load c7doc =
      .ok (ParameterSpace.mk
        [ParameterDefinition.mk (Yaml.i 123) (Yaml.s "constant") [("value", Yaml.i 1)]]) ∧
    ∀ t : String, Yaml.i 123 ≠ Yaml.s t :=
  ⟨rfl, fun _ h => Yaml.noConfusion h⟩

/-- C7 amended: for every definition in a space returned by
`parse_parameter_space`, the `name` field is exactly the value of the
source item's `name` key; only the key's presence is enforced — the value
is not checked to be a non-empty identifier string. -/
theorem claim7_name_presence_only (safeLoad : String → Except String Yaml) (doc : String)
    (sp : ParameterSpace) (h : parse_parameter_space safeLoad doc = .ok sp) :
    ∀ pd ∈ sp.parameters, ∃ ytext es items ies,
      _extract_yaml_from_docstring doc = .ok ytext ∧ safeLoad ytext = .ok (.map es) ∧
      dictGet es "parameters" = some (.list items) ∧ Yaml.map ies ∈ items ∧
      hasKey ies "name" = true ∧ dictGet ies "name" = some pd.name := by
  intro pd hpd
  obtain ⟨ytext, es, items, item, he, hl, hg, hitem, hval⟩ :=
    parse_ok_member safeLoad doc sp h pd hpd
  obtain ⟨ies, rfl, hn, _, hnv, _, _⟩ := validate_ok item pd hval
  exact ⟨ytext, es, items, ies, he, hl, hg, hitem, hn, hnv⟩

/-- Witness for the amended C7, at the C1 round-trip document. -/
theorem claim7_witness :
    ∃ ytext es items ies,
      _extract_yaml_from_docstring c1doc = .ok ytext ∧ c1load ytext = .ok (.map es) ∧
      dictGet es "parameters" = some (.list items) ∧ Yaml.map ies ∈ items ∧
      hasKey ies "name" = true ∧
      dictGet ies "name" =
        some (ParameterDefinition.mk (Yaml.s "x") (Yaml.s "constant")
          [("value", Yaml.i 7)]).name :=
  claim7_name_presence_only c1load c1doc c1space rfl
    (ParameterDefinition.mk (Yaml.s "x") (Yaml.s "constant") [("value", Yaml.i 7)])
    (by simp [c1space])

/-- C5: every definition in a space returned by `parse_parameter_space`
has an `args` mapping containing neither `name` nor `distribution`, and
`args` is exactly the source item's key/value pairs with those two keys
removed. -/
theorem claim5_args_exclude_lifted_keys (safeLoad : String → Except String Yaml) (doc : String)
    (sp : ParameterSpace) (h : parse_parameter_space safeLoad doc = .ok sp) :
    ∀ pd ∈ sp.parameters,
      hasKey pd.args "name" = false ∧ hasKey pd.args "distribution" = false ∧
      ∃ ytext es items ies,
        _extract_yaml_from_docstring doc = .ok ytext ∧ safeLoad ytext = .ok (.map es) ∧
        dictGet es "parameters" = some (.list items) ∧ Yaml.map ies ∈ items ∧
        pd.args = ies.filter (fun kv => !(kv.1 == "name" || kv.1 == "distribution")) := by
  intro pd hpd
  obtain ⟨ytext, es, items, item, he, hl, hg, hitem, hval⟩ :=
    parse_ok_member safeLoad doc sp h pd hpd
  obtain ⟨ies, rfl, _, _, _, _, hargs⟩ := validate_ok item pd hval
  refine ⟨?_, ?_, ytext, es, items, ies, he, hl, hg, hitem, hargs⟩
  · rw [hargs]
    exact hasKey_filter_lifted ies "name" (Or.inl rfl)
  · rw [hargs]
    exact hasKey_filter_lifted ies "distribution" (Or.inr rfl)

/-- Witness for C5, at the C1 round-trip document. -/
theorem claim5_witness :
    hasKey (ParameterDefinition.mk (Yaml.s "x") (Yaml.s "constant")
      [("value", Yaml.i 7)]).args "name" = false ∧
    hasKey (ParameterDefinition.mk (Yaml.s "x") (Yaml.s "constant")
      [("value", Yaml.i 7)]).args "distribution" = false ∧
    ∃ ytext es items ies,
      _extract_yaml_from_docstring c1doc = .ok ytext ∧ c1load ytext = .ok (.map es) ∧
      dictGet es "parameters" = some (.list items) ∧ Yaml.map ies ∈ items ∧
      (ParameterDefinition.mk (Yaml.s "x") (Yaml.s "constant") [("value", Yaml.i 7)]).args =
        ies.filter (fun kv => !(kv.1 == "name" || kv.1 == "distribution")) :=
  claim5_args_exclude_lifted_keys c1load c1doc c1space rfl
    (ParameterDefinition.mk (Yaml.s "x") (Yaml.s "constant") [("value", Yaml.i 7)])
    (by simp [c1space])

/-- C8: lookup by name on a `ParameterSpace` returns the first definition
in insertion order whose `name` equals the key (later duplicates are
shadowed), and fails with `KeyError` exactly when no definition's name
equals the key. -/
theorem claim8_lookup_first_match (sp : ParameterSpace) (key : String) :
    (∀ p : ParameterDefinition, sp.getItem key = .ok p ↔
      ∃ i : Nat, sp.parameters[i]? = some p ∧ p.name = Yaml.s key ∧
        ∀ j : Nat, j < i → ∀ q0 : ParameterDefinition,
          sp.parameters[j]? = some q0 → q0.name ≠ Yaml.s key) ∧
    (sp.getItem key = .error (.keyError key) ↔
      ∀ p ∈ sp.parameters, p.name ≠ Yaml.s key) := by
  constructor
  · intro p
    constructor
    · intro h
      unfold ParameterSpace.getItem at h
      match hf : sp.parameters.find? (fun p => yamlEqStr p.name key) with
      | none => rw [hf] at h; cases h
      | some p0 =>
        rw [hf] at h
        have hp0 : p0 = p := by
          have h' : (Except.ok p0 : Except PyErr ParameterDefinition) = .ok p := h
          injection h'
        subst hp0
        obtain ⟨i, hi, hq, hmin⟩ := (find?_first _ _ _).mp hf
        refine ⟨i, hi, (yamlEqStr_iff _ _).mp hq, ?_⟩
        intro j hj q0 hq0 hcontra
        have := hmin j hj q0 hq0
        rw [(yamlEqStr_iff q0.name key).mpr hcontra] at this
        cases this
    · rintro ⟨i, hi, hname, hmin⟩
      have hf : sp.parameters.find? (fun p => yamlEqStr p.name key) = some p := by
        rw [find?_first]
        refine ⟨i, hi, (yamlEqStr_iff _ _).mpr hname, ?_⟩
        intro j hj b hb
        have hne := hmin j hj b hb
        cases hq : yamlEqStr b.name key
        · rfl
        · exact absurd ((yamlEqStr_iff _ _).mp hq) hne
      unfold ParameterSpace.getItem
      rw [hf]
  · constructor
    · intro h p hp hcontra
      unfold ParameterSpace.getItem at h
      match hf : sp.parameters.find? (fun p => yamlEqStr p.name key) with
      | some p0 =>
        rw [hf] at h
        exact Except.noConfusion (show (Except.ok p0 : Except PyErr ParameterDefinition) =
          .error (.keyError key) from h)
      | none =>
        have := List.find?_eq_none.mp hf p hp
        exact this ((yamlEqStr_iff _ _).mpr hcontra)
    · intro hall
      have hf : sp.parameters.find? (fun p => yamlEqStr p.name key) = none := by
        rw [List.find?_eq_none]
        intro x hx hq
        exact hall x hx ((yamlEqStr_iff _ _).mp hq)
      unfold ParameterSpace.getItem
      rw [hf]

/-- C9: parsing the empty string fails with the empty-docstring extraction
error, and parsing any non-empty string containing neither a fenced block
nor the substring `parameters:` fails with the no-YAML-content error. -/
theorem claim9_empty_and_absent_input :
    (∀ safeLoad : String → Except String Yaml,
      parse_parameter_space safeLoad "" = .error (.valueError "Docstring is empty")) ∧
    (∀ (safeLoad : String → Except String Yaml) (s : String),
      ¬ HasFencedBlock s.data → isSubOf pcolon s.data = false → s.data ≠ [] →
      parse_parameter_space safeLoad s =
        .error (.valueError "No YAML content found in docstring")) := by
  constructor
  · intro safeLoad
    rfl
  · intro safeLoad s hnf hp hne
    have hext := extract_noYaml s hnf hp hne
    unfold parse_parameter_space
    rw [hext]

/-- Witness for C9 on the inputs `""` and `"no yaml here"`. -/
theorem claim9_witness :
    parse_parameter_space (fun _ => .error "never called") "" =
      .error (.valueError "Docstring is empty") ∧
    parse_parameter_space (fun _ => .error "never called") "no yaml here" =
      .error (.valueError "No YAML content found in docstring") :=
  ⟨claim9_empty_and_absent_input.1 _,
   claim9_empty_and_absent_input.2 _ "no yaml here"
     (noFence_of_noBacktick _ (by decide)) (by decide) (by decide)⟩

/-- C10 counterexample: on an input whose every fenced block is tagged
`python`, extraction does NOT fall through to the raw heuristic — the
pattern matches between the first closer and the next opener and yields
the empty string, while the raw heuristic would have yielded
`"parameters: 1"`. -/
theorem claim10_counterexample :
    _extract_yaml_from_docstring c10doc = .ok "" ∧
    String.mk (pyStrip (joinNl (specRawLines (splitNl c10doc.data)))) = "parameters: 1" ∧
    ("" : String) ≠ "parameters: 1" :=
  ⟨rfl, rfl, by decide⟩

/-- C10 amended: a non-`yaml`/`yml` tag on every block does not by itself
make extraction skip fences (the pattern can pair a closer with a later
opener); extraction falls through to the raw `parameters:` heuristic
exactly when no fenced-block decomposition of the input exists, and then
fails with the no-YAML-content error if the heuristic finds nothing. -/
theorem claim10_fallthrough_iff_no_fence_match (s : String)
    (hnf : ¬ HasFencedBlock s.data) (hne : s.data ≠ []) :
    (isSubOf pcolon s.data = true →
      _extract_yaml_from_docstring s =
        .ok (String.mk (pyStrip (joinNl (specRawLines (splitNl s.data)))))) ∧
    (isSubOf pcolon s.data = false →
      _extract_yaml_from_docstring s =
        .error (.valueError "No YAML content found in docstring")) :=
  ⟨fun hp => extract_raw s hnf hp, fun hp => extract_noYaml s hnf hp hne⟩

/-- Witness for the amended C10 at `c10wdoc`. -/
theorem claim10_witness :
    _extract_yaml_from_docstring c10wdoc =
      .ok (String.mk (pyStrip (joinNl (specRawLines (splitNl c10wdoc.data))))) ∧
    _extract_yaml_from_docstring c10wdoc = .ok "parameters: 1" :=
  ⟨(claim10_fallthrough_iff_no_fence_match c10wdoc
      (noFence_of_noBacktick _ (by decide)) (by decide)).1 (by decide), rfl⟩

/-! ### Claim C2: the validator agrees with the spec's rule table -/

theorem isSubOf_strings (pat a b m : String) (hm : m.data = a.data ++ pat.data ++ b.data) :
    isSubOf pat.data m.data = true := by
  rw [hm]
  exact isSubOf_of_decomp _ _ _

theorem specViolation_uniform (args : List (String × Yaml)) :
    specViolation (Yaml.s "uniform") args = (!hasKey args "low" || !hasKey args "high") := rfl

theorem specViolation_normal (args : List (String × Yaml)) :
    specViolation (Yaml.s "normal") args = (!hasKey args "mean" || !hasKey args "std") := rfl

theorem specViolation_choice (args : List (String × Yaml)) :
    specViolation (Yaml.s "choice") args =
      (match dictGet args "values" with
        | some (Yaml.list _) => false
        | _ => true) := rfl

theorem specViolation_constant (args : List (String × Yaml)) :
    specViolation (Yaml.s "constant") args = !hasKey args "value" := rfl

theorem specViolation_other (t : String) (args : List (String × Yaml))
    (h1 : t ≠ "uniform") (h2 : t ≠ "normal") (h3 : t ≠ "choice") (h4 : t ≠ "constant") :
    specViolation (Yaml.s t) args = true := by
  have e : specViolation (Yaml.s t) args =
      (if t = "uniform" then !hasKey args "low" || !hasKey args "high"
       else if t = "normal" then !hasKey args "mean" || !hasKey args "std"
       else if t = "choice" then
         (match dictGet args "values" with
           | some (Yaml.list _) => false
           | _ => true)
       else if t = "constant" then !hasKey args "value"
       else true) := rfl
  rw [e, if_neg h1, if_neg h2, if_neg h3, if_neg h4]

theorem distKindOf_other (t : String)
    (h1 : t ≠ "uniform") (h2 : t ≠ "normal") (h3 : t ≠ "choice") (h4 : t ≠ "constant") :
    distKindOf (Yaml.s t) = .ok none := by
  have e : distKindOf (Yaml.s t) =
      .ok (if t = "uniform" then some DistKind.uniform
        else if t = "normal" then some DistKind.normal
        else if t = "choice" then some DistKind.choice
        else if t = "constant" then some DistKind.constant
        else none) := rfl
  rw [e, if_neg h1, if_neg h2, if_neg h3, if_neg h4]

/-- C2: for every mapping item that reaches per-item validation (both
`name` and `distribution` present), validation fails exactly when the
declared kind is outside the four-kind set or a required argument from
the rule table is missing or `choice.values` is present but not a list;
an unknown string kind produces a message naming the kind and listing the
supported set, and a `uniform` item lacking only `high` produces a
message containing `requires 'high' field`. -/
theorem claim2_validator_rule_table (es : List (String × Yaml)) (d : Yaml)
    (hn : hasKey es "name" = true) (hd : dictGet es "distribution" = some d) :
    ((∃ pd, _validate_parameter (Yaml.map es) = .ok pd) ↔
      specViolation d (es.filter (fun kv => !(kv.1 == "name" || kv.1 == "distribution"))) =
        false) ∧
    (∀ t : String, d = Yaml.s t →
      t ≠ "uniform" → t ≠ "normal" → t ≠ "choice" → t ≠ "constant" →
      ∃ m : String, _validate_parameter (Yaml.map es) = .error (.valueError m) ∧
        isSubOf t.data m.data = true ∧
        isSubOf ("Supported types: uniform, normal, choice, constant").data m.data = true) ∧
    (d = Yaml.s "uniform" →
      hasKey (es.filter (fun kv => !(kv.1 == "name" || kv.1 == "distribution"))) "low" = true →
      hasKey (es.filter (fun kv => !(kv.1 == "name" || kv.1 == "distribution"))) "high" = false →
      ∃ m : String, _validate_parameter (Yaml.map es) = .error (.valueError m) ∧
        isSubOf ("requires " ++ sq ++ "high" ++ sq ++ " field").data m.data = true) := by
  have hdk : hasKey es "distribution" = true := hasKey_of_dictGet es "distribution" d hd
  obtain ⟨nv, hnv⟩ := dictGet_of_hasKey es "name" hn
  set args := es.filter (fun kv => !(kv.1 == "name" || kv.1 == "distribution")) with hargsdef
  have e0 : _validate_parameter (Yaml.map es) =
      (if hasKey es "name" = false then
        .error (.valueError ("Parameter definition missing " ++ sq ++ "name" ++ sq ++ " field"))
      else if hasKey es "distribution" = false then
        (match pySubscript (Yaml.map es) "name" with
          | .error e => .error e
          | .ok n => .error (.valueError ("Parameter " ++ sq ++ pyStr n ++ sq ++
              " missing " ++ sq ++ "distribution" ++ sq ++ " field")))
      else
        (match pySubscript (Yaml.map es) "name" with
          | .error e => .error e
          | .ok name =>
            match pySubscript (Yaml.map es) "distribution" with
            | .error e => .error e
            | .ok distribution =>
              match distKindOf distribution with
              | .error e => .error e
              | .ok none =>
                .error (.valueError ("Parameter " ++ sq ++ pyStr name ++ sq ++
                  ": unknown distribution type " ++ sq ++ pyStr distribution ++ sq ++
                  ". Supported types: uniform, normal, choice, constant"))
              | .ok (some kind) =>
                match runValidator kind args name with
                | .error e => .error e
                | .ok _ => .ok (ParameterDefinition.mk name distribution args))) := rfl
  rw [if_neg (by simp [hn]), if_neg (by simp [hdk])] at e0
  have e1 : pySubscript (Yaml.map es) "name" = .ok nv := by
    simp only [pySubscript, hnv]
  have e2 : pySubscript (Yaml.map es) "distribution" = .ok d := by
    simp only [pySubscript, hd]
  rw [e1] at e0
  have t1 : _validate_parameter (Yaml.map es) =
      (match pySubscript (Yaml.map es) "distribution" with
        | .error e => .error e
        | .ok distribution =>
          match distKindOf distribution with
          | .error e => .error e
          | .ok none =>
            .error (.valueError ("Parameter " ++ sq ++ pyStr nv ++ sq ++
              ": unknown distribution type " ++ sq ++ pyStr distribution ++ sq ++
              ". Supported types: uniform, normal, choice, constant"))
          | .ok (some kind) =>
            match runValidator kind args nv with
            | .error e => .error e
            | .ok _ => .ok (ParameterDefinition.mk nv distribution args)) := e0
  rw [e2] at t1
  have t2 : _validate_parameter (Yaml.map es) =
      (match distKindOf d with
        | .error e => .error e
        | .ok none =>
          .error (.valueError ("Parameter " ++ sq ++ pyStr nv ++ sq ++
            ": unknown distribution type " ++ sq ++ pyStr d ++ sq ++
            ". Supported types: uniform, normal, choice, constant"))
        | .ok (some kind) =>
          match runValidator kind args nv with
          | .error e => .error e
          | .ok _ => .ok (ParameterDefinition.mk nv d args)) := t1
  refine ⟨?_, ?_, ?_⟩
  · -- the iff against the spec rule table
    match d with
    | .list xs =>
      have hval : _validate_parameter (Yaml.map es) =
          .error (.typeError ("unhashable type: " ++ sq ++ "list" ++ sq)) := t2
      rw [hval]
      simp [specViolation]
    | .map es2 =>
      have hval : _validate_parameter (Yaml.map es) =
          .error (.typeError ("unhashable type: " ++ sq ++ "dict" ++ sq)) := t2
      rw [hval]
      simp [specViolation]
    | .i v =>
      have hval : _validate_parameter (Yaml.map es) =
          .error (.valueError ("Parameter " ++ sq ++ pyStr nv ++ sq ++
            ": unknown distribution type " ++ sq ++ pyStr (Yaml.i v) ++ sq ++
            ". Supported types: uniform, normal, choice, constant")) := t2
      rw [hval]
      simp [specViolation]
    | .b v =>
      have hval : _validate_parameter (Yaml.map es) =
          .error (.valueError ("Parameter " ++ sq ++ pyStr nv ++ sq ++
            ": unknown distribution type " ++ sq ++ pyStr (Yaml.b v) ++ sq ++
            ". Supported types: uniform, normal, choice, constant")) := t2
      rw [hval]
      simp [specViolation]
    | .null =>
      have hval : _validate_parameter (Yaml.map es) =
          .error (.valueError ("Parameter " ++ sq ++ pyStr nv ++ sq ++
            ": unknown distribution type " ++ sq ++ pyStr Yaml.null ++ sq ++
            ". Supported types: uniform, normal, choice, constant")) := t2
      rw [hval]
      simp [specViolation]
    | .s t =>
      by_cases h1 : t = "uniform"
      · subst h1
        have t3 : _validate_parameter (Yaml.map es) =
            (match _validate_uniform args nv with
              | .error e => .error e
              | .ok _ => .ok (ParameterDefinition.mk nv (Yaml.s "uniform") args)) := t2
        rw [specViolation_uniform]
        by_cases hlow : hasKey args "low" = true
        · by_cases hhigh : hasKey args "high" = true
          · have hu : _validate_uniform args nv = .ok () := by
              unfold _validate_uniform
              rw [if_neg (by simp [hlow]), if_neg (by simp [hhigh])]
            rw [hu] at t3
            rw [t3]
            simp [hlow, hhigh]
          · have hhigh' : hasKey args "high" = false := by
              cases hx : hasKey args "high"
              · rfl
              · exact absurd hx hhigh
            have hu : _validate_uniform args nv = .error (.valueError ("Parameter " ++ sq ++
                pyStr nv ++ sq ++ ": uniform distribution requires " ++ sq ++ "high" ++ sq ++
                " field")) := by
              unfold _validate_uniform
              rw [if_neg (by simp [hlow]), if_pos (by simp [hhigh'])]
            rw [hu] at t3
            rw [t3]
            simp [hlow, hhigh']
        · have hlow' : hasKey args "low" = false := by
            cases hx : hasKey args "low"
            · rfl
            · exact absurd hx hlow
          have hu : _validate_uniform args nv = .error (.valueError ("Parameter " ++ sq ++
              pyStr nv ++ sq ++ ": uniform distribution requires " ++ sq ++ "low" ++ sq ++
              " field")) := by
            unfold _validate_uniform
            rw [if_pos (by simp [hlow'])]
          rw [hu] at t3
          rw [t3]
          simp [hlow']
      · by_cases h2 : t = "normal"
        · subst h2
          have t3 : _validate_parameter (Yaml.map es) =
              (match _validate_normal args nv with
                | .error e => .error e
                | .ok _ => .ok (ParameterDefinition.mk nv (Yaml.s "normal") args)) := t2
          rw [specViolation_normal]
          by_cases hmean : hasKey args "mean" = true
          · by_cases hstd : hasKey args "std" = true
            · have hu : _validate_normal args nv = .ok () := by
                unfold _validate_normal
                rw [if_neg (by simp [hmean]), if_neg (by simp [hstd])]
              rw [hu] at t3
              rw [t3]
              simp [hmean, hstd]
            · have hstd' : hasKey args "std" = false := by
                cases hx : hasKey args "std"
                · rfl
                · exact absurd hx hstd
              have hu : _validate_normal args nv = .error (.valueError ("Parameter " ++ sq ++
                  pyStr nv ++ sq ++ ": normal distribution requires " ++ sq ++ "std" ++ sq ++
                  " field")) := by
                unfold _validate_normal
                rw [if_neg (by simp [hmean]), if_pos (by simp [hstd'])]
              rw [hu] at t3
              rw [t3]
              simp [hmean, hstd']
          · have hmean' : hasKey args "mean" = false := by
              cases hx : hasKey args "mean"
              · rfl
              · exact absurd hx hmean
            have hu : _validate_normal args nv = .error (.valueError ("Parameter " ++ sq ++
                pyStr nv ++ sq ++ ": normal distribution requires " ++ sq ++ "mean" ++ sq ++
                " field")) := by
              unfold _validate_normal
              rw [if_pos (by simp [hmean'])]
            rw [hu] at t3
            rw [t3]
            simp [hmean']
        · by_cases h3 : t = "choice"
          · subst h3
            have t3 : _validate_parameter (Yaml.map es) =
                (match _validate_choice args nv with
                  | .error e => .error e
                  | .ok _ => .ok (ParameterDefinition.mk nv (Yaml.s "choice") args)) := t2
            rw [specViolation_choice]
            by_cases hvals : hasKey args "values" = true
            · obtain ⟨vv, hvv⟩ := dictGet_of_hasKey args "values" hvals
              have hc : _validate_choice args nv =
                  (match dictGet args "values" with
                    | some (Yaml.list _) => .ok ()
                    | _ => .error (.valueError ("Parameter " ++ sq ++ pyStr nv ++ sq ++
                        ": choice " ++ sq ++ "values" ++ sq ++ " must be a list"))) := by
                unfold _validate_choice
                rw [if_neg (by simp [hvals])]
              rw [hvv] at hc
              rw [hvv]
              match vv with
              | .list xs =>
                rw [hc] at t3
                rw [t3]
                simp
              | .s v => rw [hc] at t3; rw [t3]; simp
              | .i v => rw [hc] at t3; rw [t3]; simp
              | .b v => rw [hc] at t3; rw [t3]; simp
              | .null => rw [hc] at t3; rw [t3]; simp
              | .map es2 => rw [hc] at t3; rw [t3]; simp
            · have hvals' : hasKey args "values" = false := by
                cases hx : hasKey args "values"
                · rfl
                · exact absurd hx hvals
              have hnone : dictGet args "values" = none := by
                cases hg : dictGet args "values"
                · rfl
                · exact absurd (hasKey_of_dictGet args "values" _ hg) (by simp [hvals'])
              have hc : _validate_choice args nv = .error (.valueError ("Parameter " ++ sq ++
                  pyStr nv ++ sq ++ ": choice distribution requires " ++ sq ++ "values" ++ sq ++
                  " field")) := by
                unfold _validate_choice
                rw [if_pos (by simp [hvals'])]
              rw [hc] at t3
              rw [t3, hnone]
              simp
          · by_cases h4 : t = "constant"
            · subst h4
              have t3 : _validate_parameter (Yaml.map es) =
                  (match _validate_constant args nv with
                    | .error e => .error e
                    | .ok _ => .ok (ParameterDefinition.mk nv (Yaml.s "constant") args)) := t2
              rw [specViolation_constant]
              by_cases hcv : hasKey args "value" = true
              · have hu : _validate_constant args nv = .ok () := by
                  unfold _validate_constant
                  rw [if_neg (by simp [hcv])]
                rw [hu] at t3
                rw [t3]
                simp [hcv]
              · have hcv' : hasKey args "value" = false := by
                  cases hx : hasKey args "value"
                  · rfl
                  · exact absurd hx hcv
                have hu : _validate_constant args nv = .error (.valueError ("Parameter " ++
                    sq ++ pyStr nv ++ sq ++ ": constant distribution requires " ++ sq ++
                    "value" ++ sq ++ " field")) := by
                  unfold _validate_constant
                  rw [if_pos (by simp [hcv'])]
                rw [hu] at t3
                rw [t3]
                simp [hcv']
            · rw [distKindOf_other t h1 h2 h3 h4] at t2
              have hval : _validate_parameter (Yaml.map es) =
                  .error (.valueError ("Parameter " ++ sq ++ pyStr nv ++ sq ++
                    ": unknown distribution type " ++ sq ++ pyStr (Yaml.s t) ++ sq ++
                    ". Supported types: uniform, normal, choice, constant")) := t2
              rw [hval, specViolation_other t args h1 h2 h3 h4]
              simp
  · -- the unknown-kind message names the kind and the supported set
    intro t hdt h1 h2 h3 h4
    subst hdt
    rw [distKindOf_other t h1 h2 h3 h4] at t2
    have hval : _validate_parameter (Yaml.map es) =
        .error (.valueError ("Parameter " ++ sq ++ pyStr nv ++ sq ++
          ": unknown distribution type " ++ sq ++ t ++ sq ++
          ". Supported types: uniform, normal, choice, constant")) := t2
    refine ⟨_, hval, ?_, ?_⟩
    · refine isSubOf_strings t
        ("Parameter " ++ sq ++ pyStr nv ++ sq ++ ": unknown distribution type " ++ sq)
        (sq ++ ". Supported types: uniform, normal, choice, constant") _ ?_
      simp [String.data_append, List.append_assoc]
    · have hlit : (". Supported types: uniform, normal, choice, constant" : String) =
          ". " ++ "Supported types: uniform, normal, choice, constant" := rfl
      refine isSubOf_strings "Supported types: uniform, normal, choice, constant"
        ("Parameter " ++ sq ++ pyStr nv ++ sq ++ ": unknown distribution type " ++ sq ++ t ++
          sq ++ ". ") "" _ ?_
      rw [hlit]
      simp [String.data_append, List.append_assoc]
  · -- the missing-high message
    intro hdt hlow hhigh
    subst hdt
    have t3 : _validate_parameter (Yaml.map es) =
        (match _validate_uniform args nv with
          | .error e => .error e
          | .ok _ => .ok (ParameterDefinition.mk nv (Yaml.s "uniform") args)) := t2
    have hu : _validate_uniform args nv = .error (.valueError ("Parameter " ++ sq ++
        pyStr nv ++ sq ++ ": uniform distribution requires " ++ sq ++ "high" ++ sq ++
        " field")) := by
      unfold _validate_uniform
      rw [if_neg (by simp [hlow]), if_pos (by simp [hhigh])]
    rw [hu] at t3
    refine ⟨_, t3, ?_⟩
    have hlit : (": uniform distribution requires " : String) =
        ": uniform distribution " ++ "requires " := rfl
    refine isSubOf_strings ("requires " ++ sq ++ "high" ++ sq ++ " field")
      ("Parameter " ++ sq ++ pyStr nv ++ sq ++ ": uniform distribution ") "" _ ?_
    rw [hlit]
    simp [String.data_append, List.append_assoc]

/-- Witness for C2 at a concrete `uniform` item lacking `high`. -/
theorem claim2_witness :
    ((∃ pd, _validate_parameter (Yaml.map
        [("name", Yaml.s "x"), ("distribution", Yaml.s "uniform"), ("low", Yaml.i 0)]) =
        .ok pd) ↔
      specViolation (Yaml.s "uniform")
        ([("name", Yaml.s "x"), ("distribution", Yaml.s "uniform"),
          ("low", Yaml.i 0)].filter (fun kv => !(kv.1 == "name" || kv.1 == "distribution"))) =
        false) ∧
    (∃ m : String, _validate_parameter (Yaml.map
        [("name", Yaml.s "x"), ("distribution", Yaml.s "uniform"), ("low", Yaml.i 0)]) =
        .error (.valueError m) ∧
      isSubOf ("requires " ++ sq ++ "high" ++ sq ++ " field").data m.data = true) := by
  have h := claim2_validator_rule_table
    [("name", Yaml.s "x"), ("distribution", Yaml.s "uniform"), ("low", Yaml.i 0)]
    (Yaml.s "uniform") rfl rfl
  exact ⟨h.1, h.2.2 rfl rfl rfl⟩

end GenArt
